import Mathlib

/-!
Verification development for the example-bot repository.

The source is a Telegram bot (python-telegram-bot + SQLAlchemy + Redis)
whose core is the response-lifecycle state machine of
src/example_bot/handlers_admin.py, src/example_bot/handlers_user.py,
src/example_bot/utils.py and the data model of src/example_bot/database.py.

The embedding below models the persistent state (users, admins, tasks,
responses), the Redis-backed slyot-cancel timer, the process-wide active
flag kept in bot_data, and the handler functions that mutate this state.
Association lists keyed by integer ids stand in for the database tables
(ids are primary keys in database.py); counters are integers as in the
Integer SQL columns; each handler is a pure function from the state and
its inputs to an outcome and the successor state.  Message sending and
editing (Telegram I/O) never mutates persistent state in the source —
every send/edit failure is caught and logged — so it is not part of the
state; where a handler's control flow branches on delivery outcomes, the
delivery results are passed in as explicit function arguments.
-/

namespace ExampleBot

/-- Response.status values used by the source (database.py line 111 and the
handlers): pending_user, success_pending_admin, confirmed, rejected, slyot. -/
inductive Status where
  | pending_user
  | success_pending_admin
  | confirmed
  | rejected
  | slyot
deriving DecidableEq, Repr

/-- Row of the users table (database.py lines 54-68): the per-recipient
activity flag and the two derived counters.  Name and timestamp columns
carry no behavior and are omitted. -/
structure UserRec where
  is_active : Bool
  success_count : Int
  fail_count : Int
deriving DecidableEq, Repr

/-- Row of the responses table (database.py lines 106-121), keyed
separately by its id. -/
structure RespRec where
  user_telegram_id : Nat
  task_id : Nat
  status : Status
  moderation_message_id : Option Nat
  user_message_id : Option Nat
deriving DecidableEq, Repr

/-- Row of the tasks table (database.py lines 90-103). -/
structure TaskRec where
  admin_telegram_id : Nat
  photo_file_id : Nat
deriving DecidableEq, Repr

/-- Whole mutable state: the four tables, the set of live Redis
slyot-cancel timer keys, whether Redis is reachable, the bot_data
process-wide active flag (absent until first set, utils.py lines
107-114), and the autoincrement sources for task and response ids. -/
structure St where
  users : List (Nat × UserRec)
  admins : List Nat
  tasks : List (Nat × TaskRec)
  responses : List (Nat × RespRec)
  timers : List Nat
  redisUp : Bool
  botActive : Option Bool
  nextTaskId : Nat
  nextRespId : Nat
deriving DecidableEq, Repr

/-- Lookup of the first row with the given primary key, the embedding of
session.get / a select by unique id followed by scalar_one_or_none. -/
def alist_find {α : Type} : List (Nat × α) → Nat → Option α
  | [], _ => none
  | (k, v) :: t, k' => if k = k' then some v else alist_find t k'

/-- Pointwise update of the first row with the given primary key, the
embedding of mutating the loaded ORM row inside the session. -/
def alist_update {α : Type} : List (Nat × α) → Nat → (α → α) → List (Nat × α)
  | [], _, _ => []
  | (k, v) :: t, k', f => if k = k' then (k, f v) :: t else (k, v) :: alist_update t k' f

/-- Embedding of utils.is_bot_globally_active (utils.py lines 107-110):
context.bot_data.get(key, True), so the flag defaults to true when it was
never set. -/
def is_bot_globally_active (st : St) : Bool :=
  st.botActive.getD true

/-- Embedding of utils.set_bot_globally_active (utils.py lines 112-115). -/
def set_bot_globally_active (st : St) (active : Bool) : St :=
  { st with botActive := some active }

/-- Embedding of utils.set_slyot_cancel_timer (utils.py lines 47-58):
setex on the per-response key when Redis is reachable, returning True;
when the client is unavailable or the call raises, it returns False and
the store is untouched (soft failure). -/
def set_slyot_cancel_timer (st : St) (response_id : Nat) : Bool × St :=
  if st.redisUp then
    (true, { st with timers := if response_id ∈ st.timers then st.timers
                               else response_id :: st.timers })
  else (false, st)

/-- Embedding of utils.check_slyot_cancel_timer (utils.py lines 60-69):
an existence check on the key; any Redis failure yields False
(fail-closed, the comment on line 69 reads assume inactive on error). -/
def check_slyot_cancel_timer (st : St) (response_id : Nat) : Bool :=
  st.redisUp && decide (response_id ∈ st.timers)

/-- Embedding of utils.clear_slyot_cancel_timer (utils.py lines 71-80):
delete the key; failures are logged and ignored. -/
def clear_slyot_cancel_timer (st : St) (response_id : Nat) : St :=
  if st.redisUp then { st with timers := st.timers.filter (fun k => k != response_id) }
  else st

/-- Moderation action decoded from the admin_mod_confirm_/admin_mod_reject_
callback prefixes (constants.py lines 18-19); any other string falls into
the unknown branch of handlers_admin.py lines 318-320. -/
inductive ModAction where
  | confirm
  | reject
  | unknown
deriving DecidableEq, Repr

/-- Observable outcome of handle_admin_moderation: which of its disjoint
exit paths ran. -/
inductive ModOutcome where
  | responseNotFound
  | userNotFound
  | invalidTransition
  | confirmedOk
  | rejectedOk
  | unknownAction
deriving DecidableEq, Repr

/-- Embedding of the post-parse body of handle_admin_moderation
(handlers_admin.py lines 236-321), taking the already-decoded action;
the callback parse of lines 231-234 is embedded separately and the full
handler is handle_admin_moderation_cb below.  The body loads the
response and its user, refuses with the already-processed message when
the status is not success_pending_admin (lines 254-258), otherwise
commits the status write together with the counter increment (lines
265-268 confirm, lines 294-297 reject).  The message edits and user
notifications that follow the commit are wrapped in try/except in the
source and never mutate the database, so they do not appear in the
state. -/
def handle_admin_moderation (st : St) (response_id : Nat) (action : ModAction) :
    ModOutcome × St :=
  match alist_find st.responses response_id with
  | none => (.responseNotFound, st)
  | some resp =>
    match alist_find st.users resp.user_telegram_id with
    | none => (.userNotFound, st)
    | some _user =>
      if resp.status ≠ .success_pending_admin then (.invalidTransition, st)
      else
        match action with
        | .confirm =>
          (.confirmedOk,
            { st with
              responses := alist_update st.responses response_id
                (fun r => { r with status := .confirmed }),
              users := alist_update st.users resp.user_telegram_id
                (fun u => { u with success_count := u.success_count + 1 }) })
        | .reject =>
          (.rejectedOk,
            { st with
              responses := alist_update st.responses response_id
                (fun r => { r with status := .rejected }),
              users := alist_update st.users resp.user_telegram_id
                (fun u => { u with fail_count := u.fail_count + 1 }) })
        | .unknown => (.unknownAction, st)

/-- Slyot action decoded from the admin_slyot_mark_/admin_slyot_cancel_
callback prefixes (constants.py lines 22-23). -/
inductive SlyotAction where
  | mark
  | cancel
  | unknown
deriving DecidableEq, Repr

/-- Observable outcome of handle_admin_slyot_action.  markedOk carries
whether the Redis timer could be armed; dbError is the SQLAlchemyError
path taken when the commit of the running transaction fails (the session
context manager of database.py lines 36-50 rolls the transaction back). -/
inductive SlyotOutcome where
  | responseNotFound
  | userNotFound
  | invalidTransition
  | markedOk (timer_set : Bool)
  | canceledOk
  | windowExpired
  | dbError
  | unknownAction
deriving DecidableEq, Repr

/-- Embedding of the post-parse body of handle_admin_slyot_action
(handlers_admin.py lines 353-451), taking the already-decoded action;
the callback parse of lines 348-351 is embedded separately and the full
handler is handle_admin_slyot_action_cb below.
The commit_ok argument says whether the single session.commit
of the taken branch succeeds; on failure the session rollback discards
every pending database mutation (database.py lines 42-48), while Redis
operations already performed stay.  Mark (lines 374-406): requires status
confirmed, commits status slyot with success_count -= 1 and
fail_count += 1, and only then arms the timer, proceeding even when
arming fails (lines 385-389).  Cancel (lines 410-448): requires status
slyot, then consults the timer; when armed it first deletes the timer key
(line 417) and then commits status confirmed with fail_count -= 1 and
success_count += 1 (lines 419-422); when not armed it reports the expired
window and changes nothing (lines 442-448). -/
def handle_admin_slyot_action (st : St) (response_id : Nat) (action : SlyotAction)
    (commit_ok : Bool) : SlyotOutcome × St :=
  match alist_find st.responses response_id with
  | none => (.responseNotFound, st)
  | some resp =>
    match alist_find st.users resp.user_telegram_id with
    | none => (.userNotFound, st)
    | some _user =>
      match action with
      | .mark =>
        if resp.status ≠ .confirmed then (.invalidTransition, st)
        else if commit_ok then
          let st1 :=
            { st with
              responses := alist_update st.responses response_id
                (fun r => { r with status := .slyot }),
              users := alist_update st.users resp.user_telegram_id
                (fun u => { u with success_count := u.success_count - 1,
                                   fail_count := u.fail_count + 1 }) }
          let armed := set_slyot_cancel_timer st1 response_id
          (.markedOk armed.1, armed.2)
        else (.dbError, st)
      | .cancel =>
        if resp.status ≠ .slyot then (.invalidTransition, st)
        else if check_slyot_cancel_timer st response_id then
          let st1 := clear_slyot_cancel_timer st response_id
          if commit_ok then
            (.canceledOk,
              { st1 with
                responses := alist_update st1.responses response_id
                  (fun r => { r with status := .confirmed }),
                users := alist_update st1.users resp.user_telegram_id
                  (fun u => { u with fail_count := u.fail_count - 1,
                                     success_count := u.success_count + 1 }) })
          else (.dbError, st1)
        else (.windowExpired, st)
      | .unknown => (.unknownAction, st)

/-- User-side action decoded from the user_task_success callback
(constants.py line 14); the commented-out repeat branch and anything else
fall into the unknown branch of handlers_user.py lines 161-163. -/
inductive UserAction where
  | task_success
  | unknown
deriving DecidableEq, Repr

/-- Observable outcome of handle_user_task_response.  internalError is
the generic except-Exception path of handlers_user.py lines 173-179. -/
inductive UserOutcome where
  | responseNotFound
  | alreadyResponded
  | taskNotFound
  | internalError
  | unknownAction
deriving DecidableEq, Repr

/-- Lookup of the unique response for a (user, task) pair, the embedding
of the select on handlers_user.py line 80. -/
def find_user_response (rs : List (Nat × RespRec)) (user_id task_id : Nat) :
    Option (Nat × RespRec) :=
  rs.find? (fun p => p.2.user_telegram_id == user_id && p.2.task_id == task_id)

/-- Embedding of the post-parse body of handle_user_task_response
(handlers_user.py lines 78-163), taking the already-decoded action; the
callback parse of lines 72-76 is embedded separately and the full
handler is handle_user_task_response_cb below.
The body loads the response for this user and task, refuses when the
status is no longer pending_user (lines 89-93), checks the task exists
(lines 96-100), and for the success action commits the transition to
success_pending_admin (lines 104-105).  The code that follows the commit
is unreachable in the source: line 110 evaluates select(Admin), but Admin
is not among the imports of handlers_user.py (line 8 imports only
get_session, User, Response and Task), so the statement raises NameError,
which the generic handler at lines 173-179 catches after the status
change was already committed.  In particular the admin-notification loop
(lines 122-137), the moderation_message_id write (lines 131-133) and the
status revert to pending_user on total notification failure (lines
143-147) never execute. -/
def handle_user_task_response (st : St) (user_id task_id : Nat) (action : UserAction) :
    UserOutcome × St :=
  match find_user_response st.responses user_id task_id with
  | none => (.responseNotFound, st)
  | some found =>
    if found.2.status ≠ .pending_user then (.alreadyResponded, st)
    else
      match alist_find st.tasks task_id with
      | none => (.taskNotFound, st)
      | some _task =>
        match action with
        | .task_success =>
          (.internalError,
            { st with
              responses := alist_update st.responses found.1
                (fun r => { r with status := .success_pending_admin }) })
        | .unknown => (.unknownAction, st)

/-- Per-recipient delivery result of context.bot.send_photo inside the
broadcast loop of send_photo_execute, matching its except clauses:
BadRequest and Forbidden (blocked bot or chat not found, handlers_admin.py
line 182), any other TelegramError (line 187), and any other exception
(line 190). -/
inductive Delivery where
  | success (message_id : Nat)
  | blockedOrNotFound
  | telegramError
  | otherError
deriving DecidableEq, Repr

/-- True when the delivery to this user succeeds. -/
def is_sent (deliver : Nat → Delivery) (user_id : Nat) : Bool :=
  match deliver user_id with
  | .success _ => true
  | _ => false

/-- True when the delivery to this user fails permanently (BadRequest or
Forbidden). -/
def is_perm_fail (deliver : Nat → Delivery) (user_id : Nat) : Bool :=
  match deliver user_id with
  | .blockedOrNotFound => true
  | _ => false

/-- Response row created for a successful delivery (handlers_admin.py
lines 173-178): initial status pending_user, no moderation message,
the sent message id recorded. -/
def resp_of (deliver : Nat → Delivery) (task_id : Nat) (p : Nat × UserRec) : RespRec :=
  { user_telegram_id := p.1
    task_id := task_id
    status := .pending_user
    moderation_message_id := none
    user_message_id := match deliver p.1 with | .success m => some m | _ => none }

/-- Accumulator of the broadcast loop: the two counters, the response
rows added so far, the users marked inactive so far, and the id the next
created response will take. -/
structure LoopAcc where
  sent_count : Nat
  failed_count : Nat
  new_responses : List (Nat × RespRec)
  blocked : List Nat
  next_id : Nat
deriving DecidableEq, Repr

/-- Embedding of the per-user loop of send_photo_execute
(handlers_admin.py lines 163-192): every exception of one iteration is
caught inside the loop body, so each user is handled exactly once and
the loop always runs to the end of the list. -/
def send_loop (deliver : Nat → Delivery) (task_id : Nat) :
    List (Nat × UserRec) → LoopAcc → LoopAcc
  | [], acc => acc
  | p :: rest, acc =>
    match deliver p.1 with
    | .success m =>
      send_loop deliver task_id rest
        { acc with
          sent_count := acc.sent_count + 1
          new_responses := acc.new_responses ++
            [(acc.next_id,
              { user_telegram_id := p.1, task_id := task_id, status := .pending_user,
                moderation_message_id := none, user_message_id := some m })]
          next_id := acc.next_id + 1 }
    | .blockedOrNotFound =>
      send_loop deliver task_id rest
        { acc with
          failed_count := acc.failed_count + 1
          blocked := acc.blocked ++ [p.1] }
    | .telegramError =>
      send_loop deliver task_id rest { acc with failed_count := acc.failed_count + 1 }
    | .otherError =>
      send_loop deliver task_id rest { acc with failed_count := acc.failed_count + 1 }

/-- Marks the users whose delivery failed permanently as inactive
(handlers_admin.py line 185), applied with the final commit. -/
def mark_blocked (users : List (Nat × UserRec)) (blocked : List Nat) :
    List (Nat × UserRec) :=
  users.map (fun p => cond (blocked.contains p.1) (p.1, { p.2 with is_active := false }) p)

/-- Observable outcome of send_photo_execute. -/
inductive SendOutcome where
  | noPhoto
  | botPaused
  | noActiveUsers (task_id : Nat)
  | sent (task_id sent_count failed_count : Nat)
deriving DecidableEq, Repr

/-- Embedding of send_photo_execute (handlers_admin.py lines 119-208).
Refuses without touching anything when no photo was collected (lines
125-127) or when the global active flag is off (lines 129-131, the check
runs before the session opens).  Otherwise creates the Task row (lines
140-147), selects the users with is_active true (lines 150-152); with no
active user the task alone is committed (lines 154-158); otherwise the
loop sends to each active user, creating one pending_user response per
success, marking permanently unreachable users inactive, and counting
failures, and the final commit persists the task, the new responses and
the eligibility changes together (line 194). -/
def send_photo_execute (st : St) (admin_id : Nat) (photo_file_id : Option Nat)
    (deliver : Nat → Delivery) : SendOutcome × St :=
  match photo_file_id with
  | none => (.noPhoto, st)
  | some photo =>
    if is_bot_globally_active st = false then (.botPaused, st)
    else
      let task_id := st.nextTaskId
      let st1 := { st with
        tasks := st.tasks ++ [(task_id, { admin_telegram_id := admin_id, photo_file_id := photo })]
        nextTaskId := task_id + 1 }
      let active := st1.users.filter (fun p => p.2.is_active)
      if active.isEmpty then (.noActiveUsers task_id, st1)
      else
        let acc := send_loop deliver task_id active
          { sent_count := 0, failed_count := 0, new_responses := [], blocked := [],
            next_id := st1.nextRespId }
        (.sent task_id acc.sent_count acc.failed_count,
          { st1 with
            responses := st1.responses ++ acc.new_responses
            users := mark_blocked st1.users acc.blocked
            nextRespId := acc.next_id })

/-- Embedding of the registration part of the start command
(handlers_common.py lines 16-63): admins are left alone, an unknown
non-admin user is inserted with is_active true and zero counters
(database.py lines 59-61 defaults), an existing user is unchanged. -/
def start_command (st : St) (user_id : Nat) : St :=
  if user_id ∈ st.admins then st
  else
    match alist_find st.users user_id with
    | some _ => st
    | none =>
      { st with users := st.users ++
          [(user_id, { is_active := true, success_count := 0, fail_count := 0 })] }

/-- Embedding of toggle_user_bot_status (handlers_user.py lines 18-58):
flips the user's own is_active preference when it differs from the
requested one. -/
def toggle_user_bot_status (st : St) (user_id : Nat) (should_be_active : Bool) : St :=
  match alist_find st.users user_id with
  | none => st
  | some u =>
    if u.is_active = should_be_active then st
    else { st with users := alist_update st.users user_id
                     (fun v => { v with is_active := should_be_active }) }

/-- Embedding of toggle_global_bot_status (handlers_admin.py lines
469-483): negate the process-wide flag. -/
def toggle_global_bot_status (st : St) : St :=
  set_bot_globally_active st (!(is_bot_globally_active st))

/-- One incoming unit of work: every state-mutating entry point of the
source, with its external inputs (delivery results, commit success).
The callback entry points appear here with the action already decoded,
which over-approximates the program: the real parse (embedded below as
handle_admin_moderation_cb, handle_admin_slyot_action_cb and
handle_user_task_response_cb) never actually produces the
confirm/reject/mark/cancel/task_success actions, so every behavior of
the program is a behavior of this transition system. -/
inductive Op where
  | startCmd (user_id : Nat)
  | toggleUser (user_id : Nat) (should_be_active : Bool)
  | userResp (user_id task_id : Nat) (action : UserAction)
  | modAction (response_id : Nat) (action : ModAction)
  | slyotAct (response_id : Nat) (action : SlyotAction) (commit_ok : Bool)
  | sendPhoto (admin_id : Nat) (photo_file_id : Option Nat) (deliver : Nat → Delivery)
  | toggleGlobal

/-- State reached after running one operation. -/
def run (st : St) : Op → St
  | .startCmd uid => start_command st uid
  | .toggleUser uid b => toggle_user_bot_status st uid b
  | .userResp uid tid a => (handle_user_task_response st uid tid a).2
  | .modAction rid a => (handle_admin_moderation st rid a).2
  | .slyotAct rid a c => (handle_admin_slyot_action st rid a c).2
  | .sendPhoto aid ph d => (send_photo_execute st aid ph d).2
  | .toggleGlobal => toggle_global_bot_status st

/-- Freshly bootstrapped deployment: empty tables, the configured admin
ids, no timers, the active flag never set. -/
def init (admins : List Nat) (redisUp : Bool) : St :=
  { users := [], admins := admins, tasks := [], responses := [], timers := [],
    redisUp := redisUp, botActive := none, nextTaskId := 0, nextRespId := 0 }

/-- States reachable from a freshly bootstrapped deployment by any
sequence of operations. -/
def reachable (admins : List Nat) (redisUp : Bool) (st : St) : Prop :=
  Relation.ReflTransGen (fun s t => ∃ op, t = run s op) (init admins redisUp) st

/-! Callback parsing.  The handlers do not receive a decoded action: they
receive the raw callback_data string and parse it themselves
(handlers_admin.py lines 232-234 and 349-351, handlers_user.py lines
73-76).  The definitions below embed that parse faithfully, character by
character, and the full string-level entry points compose it with the
decoded-action bodies above. -/

/-- First split of a Python str.split(sep): the part before the first
separator and the rest, or none when the separator does not occur. -/
def splitFirst (sep : Char) : List Char → Option (List Char × List Char)
  | [] => none
  | c :: t =>
    if c = sep then some ([], t)
    else
      match splitFirst sep t with
      | none => none
      | some (a, b) => some (c :: a, b)

/-- Embedding of Python s.split(sep, maxsplit=2): at most two splits, the
remainder kept whole. -/
def split2 (sep : Char) (s : List Char) : List (List Char) :=
  match splitFirst sep s with
  | none => [s]
  | some (a, r) =>
    match splitFirst sep r with
    | none => [a, r]
    | some (b, r2) => [a, b, r2]

/-- One step of decimal accumulation for the int() embedding. -/
def py_int_core : Nat → List Char → Option Nat
  | acc, [] => some acc
  | acc, c :: t =>
    if c.isDigit then py_int_core (acc * 10 + (c.toNat - '0'.toNat)) t
    else if c = '_' then
      match t with
      | [] => none
      | c2 :: _ => if c2.isDigit then py_int_core acc t else none
    else none

/-- Embedding of Python int(s) on the callback id segment: a decimal
number (Python also accepts single underscores between digits); any other
character — in particular the letters of a payload segment such as
confirm_7 — raises ValueError, modelled as none. -/
def py_int? (s : List Char) : Option Nat :=
  match s with
  | [] => none
  | c :: _ => if c.isDigit then py_int_core 0 s else none

/-- Embedding of the parse shared by both admin callback handlers
(handlers_admin.py lines 232-234 and 349-351): unpack
callback_data.split(sep, maxsplit=2) into three segments — fewer raise
ValueError — convert the third with int(), and reconstruct the action
string as the first segment, an underscore, the second segment and a
trailing underscore.  none is the ValueError path, caught at lines
323-325 and 453-455 with an error reply and no state change. -/
def parse_admin_callback (cb : List Char) : Option (List Char × Nat) :=
  match split2 '_' cb with
  | [p, a, rids] =>
    (py_int? rids).map (fun rid => (p ++ '_' :: (a ++ ['_']), rid))
  | _ => none

/-- Embedding of the user-side parse (handlers_user.py lines 73-76):
split into three segments and drop the first, reconstruct the action as
the user prefix followed by the second segment, and convert the third
with int().  none is the ValueError path of lines 166-168. -/
def parse_user_callback (cb : List Char) : Option (List Char × Nat) :=
  match split2 '_' cb with
  | [_p, a, tids] =>
    (py_int? tids).map (fun tid => (("user_".data) ++ a, tid))
  | _ => none

/-- Callback action strings of constants.py lines 18-23 and 14. -/
def CB_ADMIN_CONFIRM : List Char := "admin_mod_confirm_".data

def CB_ADMIN_REJECT : List Char := "admin_mod_reject_".data

def CB_ADMIN_MARK_SLYOT : List Char := "admin_slyot_mark_".data

def CB_ADMIN_CANCEL_SLYOT : List Char := "admin_slyot_cancel_".data

def CB_USER_TASK_SUCCESS : List Char := "user_task_success".data

/-- The action comparisons of handlers_admin.py lines 265 and 294. -/
def decode_mod_action (s : List Char) : ModAction :=
  if s = CB_ADMIN_CONFIRM then .confirm
  else if s = CB_ADMIN_REJECT then .reject
  else .unknown

/-- The action comparisons of handlers_admin.py lines 374 and 410. -/
def decode_slyot_action (s : List Char) : SlyotAction :=
  if s = CB_ADMIN_MARK_SLYOT then .mark
  else if s = CB_ADMIN_CANCEL_SLYOT then .cancel
  else .unknown

/-- The action comparison of handlers_user.py line 103. -/
def decode_user_action (s : List Char) : UserAction :=
  if s = CB_USER_TASK_SUCCESS then .task_success else .unknown

/-- Full embedding of handle_admin_moderation as invoked by the
framework: the raw callback_data is parsed first (lines 231-234); a
ValueError yields the error reply of lines 323-325 with no state change
(outcome none); otherwise the handler body runs with the reconstructed
action string compared against the constants. -/
def handle_admin_moderation_cb (st : St) (callback_data : List Char) :
    Option ModOutcome × St :=
  match parse_admin_callback callback_data with
  | none => (none, st)
  | some (action, response_id) =>
    let r := handle_admin_moderation st response_id (decode_mod_action action)
    (some r.1, r.2)

/-- Full embedding of handle_admin_slyot_action as invoked by the
framework, parse included (lines 348-351; ValueError caught at lines
453-455 with no state change). -/
def handle_admin_slyot_action_cb (st : St) (callback_data : List Char)
    (commit_ok : Bool) : Option SlyotOutcome × St :=
  match parse_admin_callback callback_data with
  | none => (none, st)
  | some (action, response_id) =>
    let r := handle_admin_slyot_action st response_id (decode_slyot_action action)
      commit_ok
    (some r.1, r.2)

/-- Full embedding of handle_user_task_response as invoked by the
framework, parse included (lines 72-76; ValueError caught at lines
166-168 with no state change). -/
def handle_user_task_response_cb (st : St) (user_id : Nat)
    (callback_data : List Char) : Option UserOutcome × St :=
  match parse_user_callback callback_data with
  | none => (none, st)
  | some (action, task_id) =>
    let r := handle_user_task_response st user_id task_id (decode_user_action action)
    (some r.1, r.2)

/-! Association-list lemmas shared by the proofs below. -/

theorem alist_find_update_self {α : Type} {l : List (Nat × α)} {k : Nat} {v : α}
    (f : α → α) (h : alist_find l k = some v) :
    alist_find (alist_update l k f) k = some (f v) := by
  induction l with
  | nil => simp [alist_find] at h
  | cons p t ih =>
    obtain ⟨a, w⟩ := p
    by_cases hak : a = k
    · subst hak
      simp [alist_find] at h
      simp [alist_update, alist_find, h]
    · simp [alist_find, hak] at h
      simp [alist_update, alist_find, hak, ih h]

theorem alist_find_update_other {α : Type} {l : List (Nat × α)} {k k' : Nat}
    (f : α → α) (h : k' ≠ k) :
    alist_find (alist_update l k f) k' = alist_find l k' := by
  induction l with
  | nil => simp [alist_update]
  | cons p t ih =>
    obtain ⟨a, w⟩ := p
    by_cases hak : a = k
    · subst hak
      have hk' : a ≠ k' := fun hh => h (hh ▸ rfl)
      simp [alist_update, alist_find, hk']
    · simp [alist_update, alist_find, hak]
      by_cases hak' : a = k'
      · simp [hak']
      · simp [hak', ih]

theorem alist_update_of_find_none {α : Type} {l : List (Nat × α)} {k : Nat}
    (f : α → α) (h : alist_find l k = none) : alist_update l k f = l := by
  induction l with
  | nil => rfl
  | cons p t ih =>
    obtain ⟨a, w⟩ := p
    by_cases hak : a = k
    · simp [alist_find, hak] at h
    · simp [alist_find, hak] at h
      simp [alist_update, hak, ih h]

theorem alist_update_map_fst {α : Type} (l : List (Nat × α)) (k : Nat) (f : α → α) :
    (alist_update l k f).map Prod.fst = l.map Prod.fst := by
  induction l with
  | nil => rfl
  | cons p t ih =>
    obtain ⟨a, w⟩ := p
    by_cases hak : a = k
    · simp [alist_update, hak]
    · simp [alist_update, hak, ih]

theorem alist_find_mem {α : Type} {l : List (Nat × α)} {k : Nat} {v : α}
    (h : alist_find l k = some v) : (k, v) ∈ l := by
  induction l with
  | nil => simp [alist_find] at h
  | cons p t ih =>
    obtain ⟨a, w⟩ := p
    by_cases hak : a = k
    · subst hak
      simp [alist_find] at h
      simp [h]
    · simp [alist_find, hak] at h
      exact List.mem_cons_of_mem _ (ih h)

theorem alist_find_eq_some_of_mem {α : Type} {l : List (Nat × α)} {k : Nat} {v : α}
    (hnd : (l.map Prod.fst).Nodup) (hm : (k, v) ∈ l) : alist_find l k = some v := by
  induction l with
  | nil => simp at hm
  | cons p t ih =>
    obtain ⟨a, w⟩ := p
    simp only [List.map_cons, List.nodup_cons] at hnd
    rcases List.mem_cons.mp hm with heq | htail
    · obtain ⟨h1, h2⟩ := Prod.mk.injEq .. ▸ heq
      simp [alist_find, h1.symm, h2]
    · have hak : a ≠ k := by
        intro hh
        exact hnd.1 (hh ▸ (List.mem_map.mpr ⟨(k, v), htail, rfl⟩))
      simp [alist_find, hak, ih hnd.2 htail]

theorem mem_alist_update {α : Type} {l : List (Nat × α)} {k : Nat} {f : α → α}
    {p : Nat × α} (h : p ∈ alist_update l k f) :
    p ∈ l ∨ ∃ v, alist_find l k = some v ∧ p = (k, f v) := by
  induction l with
  | nil => simp [alist_update] at h
  | cons q t ih =>
    obtain ⟨a, w⟩ := q
    by_cases hak : a = k
    · subst hak
      simp only [alist_update, if_pos rfl] at h
      rcases List.mem_cons.mp h with heq | htail
      · exact Or.inr ⟨w, by simp [alist_find], heq⟩
      · exact Or.inl (List.mem_cons_of_mem _ htail)
    · simp only [alist_update, if_neg hak] at h
      rcases List.mem_cons.mp h with heq | htail
      · exact Or.inl (heq ▸ List.mem_cons_self _ _)
      · rcases ih htail with hl | ⟨v, hv, hp⟩
        · exact Or.inl (List.mem_cons_of_mem _ hl)
        · exact Or.inr ⟨v, by simp [alist_find, hak, hv], hp⟩

theorem alist_find_append {α : Type} (l l' : List (Nat × α)) (k : Nat) :
    alist_find (l ++ l') k =
      match alist_find l k with
      | some v => some v
      | none => alist_find l' k := by
  induction l with
  | nil => simp [alist_find]
  | cons p t ih =>
    obtain ⟨a, w⟩ := p
    by_cases hak : a = k
    · simp [alist_find, hak]
    · simp [alist_find, hak, ih]

theorem alist_find_isSome_update {α : Type} (l : List (Nat × α)) (k k' : Nat)
    (f : α → α) :
    (alist_find (alist_update l k' f) k).isSome = (alist_find l k).isSome := by
  by_cases hk : k = k'
  · subst hk
    cases hfind : alist_find l k with
    | none => rw [alist_update_of_find_none f hfind, hfind]
    | some v => simp [alist_find_update_self f hfind]
  · rw [alist_find_update_other f hk]

theorem length_filter_update {α : Type} (P : Nat × α → Bool) {l : List (Nat × α)}
    {k : Nat} {v : α} (f : α → α) (h : alist_find l k = some v) :
    ((alist_update l k f).filter P).length + (if P (k, v) then 1 else 0)
      = (l.filter P).length + (if P (k, f v) then 1 else 0) := by
  induction l with
  | nil => simp [alist_find] at h
  | cons p t ih =>
    obtain ⟨a, w⟩ := p
    by_cases hak : a = k
    · subst hak
      have hw : w = v := by simpa [alist_find] using h
      subst hw
      simp only [alist_update, if_pos rfl, List.filter_cons]
      by_cases h1 : P (a, f w) <;> by_cases h2 : P (a, w) <;> simp [h1, h2]
    · simp only [alist_find, if_neg hak] at h
      have hih := ih h
      simp only [alist_update, if_neg hak, List.filter_cons]
      by_cases h2 : P (a, w) <;> simp [h2] <;> omega

/-! Characterizations of the broadcast loop. -/

theorem send_loop_sent (d : Nat → Delivery) (tid : Nat) (us : List (Nat × UserRec))
    (acc : LoopAcc) :
    (send_loop d tid us acc).sent_count
      = acc.sent_count + (us.filter (fun p => is_sent d p.1)).length := by
  induction us generalizing acc with
  | nil => simp [send_loop]
  | cons p rest ih =>
    cases hd : d p.1 <;>
      (simp [send_loop, hd, List.filter_cons, is_sent, ih]; try omega)

theorem send_loop_failed (d : Nat → Delivery) (tid : Nat) (us : List (Nat × UserRec))
    (acc : LoopAcc) :
    (send_loop d tid us acc).failed_count
      = acc.failed_count + (us.filter (fun p => !(is_sent d p.1))).length := by
  induction us generalizing acc with
  | nil => simp [send_loop]
  | cons p rest ih =>
    cases hd : d p.1 <;>
      simp [send_loop, hd, List.filter_cons, is_sent, ih] <;> omega

theorem send_loop_responses (d : Nat → Delivery) (tid : Nat) (us : List (Nat × UserRec))
    (acc : LoopAcc) :
    (send_loop d tid us acc).new_responses.map Prod.snd
      = acc.new_responses.map Prod.snd
        ++ (us.filter (fun p => is_sent d p.1)).map (resp_of d tid) := by
  induction us generalizing acc with
  | nil => simp [send_loop]
  | cons p rest ih =>
    cases hd : d p.1 <;>
      simp [send_loop, hd, List.filter_cons, is_sent, ih, resp_of]

theorem send_loop_blocked (d : Nat → Delivery) (tid : Nat) (us : List (Nat × UserRec))
    (acc : LoopAcc) :
    (send_loop d tid us acc).blocked
      = acc.blocked ++ (us.filter (fun p => is_perm_fail d p.1)).map Prod.fst := by
  induction us generalizing acc with
  | nil => simp [send_loop]
  | cons p rest ih =>
    cases hd : d p.1 <;>
      simp [send_loop, hd, List.filter_cons, is_perm_fail, ih]

theorem send_loop_keys (d : Nat → Delivery) (tid : Nat) (us : List (Nat × UserRec))
    {lo : Nat} {acc : LoopAcc}
    (hnd : (acc.new_responses.map Prod.fst).Nodup)
    (hlo : ∀ k ∈ acc.new_responses.map Prod.fst, lo ≤ k ∧ k < acc.next_id)
    (hlon : lo ≤ acc.next_id) :
    ((send_loop d tid us acc).new_responses.map Prod.fst).Nodup
    ∧ (∀ k ∈ (send_loop d tid us acc).new_responses.map Prod.fst,
        lo ≤ k ∧ k < (send_loop d tid us acc).next_id)
    ∧ lo ≤ (send_loop d tid us acc).next_id := by
  induction us generalizing acc with
  | nil => exact ⟨hnd, hlo, hlon⟩
  | cons p rest ih =>
    cases hd : d p.1
    case success m =>
      have hstep : send_loop d tid (p :: rest) acc
          = send_loop d tid rest
              { acc with
                sent_count := acc.sent_count + 1
                new_responses := acc.new_responses ++
                  [(acc.next_id,
                    { user_telegram_id := p.1, task_id := tid, status := .pending_user,
                      moderation_message_id := none, user_message_id := some m })]
                next_id := acc.next_id + 1 } := by
        simp [send_loop, hd]
      rw [hstep]
      refine ih ?_ ?_ ?_
      · simp only [List.map_append, List.map_cons, List.map_nil]
        refine List.Nodup.append hnd (List.nodup_singleton _) ?_
        intro a ha hb
        simp only [List.mem_singleton] at hb
        subst hb
        exact absurd (hlo _ ha).2 (lt_irrefl _)
      · intro k hk
        simp only [List.map_append, List.map_cons, List.map_nil, List.mem_append,
          List.mem_singleton] at hk
        show lo ≤ k ∧ k < acc.next_id + 1
        rcases hk with hk | hk
        · have := hlo k hk
          omega
        · subst hk
          omega
      · show lo ≤ acc.next_id + 1
        omega
    case blockedOrNotFound =>
      have hstep : send_loop d tid (p :: rest) acc
          = send_loop d tid rest
              { acc with failed_count := acc.failed_count + 1,
                         blocked := acc.blocked ++ [p.1] } := by
        simp [send_loop, hd]
      rw [hstep]
      exact ih hnd hlo hlon
    case telegramError =>
      have hstep : send_loop d tid (p :: rest) acc
          = send_loop d tid rest { acc with failed_count := acc.failed_count + 1 } := by
        simp [send_loop, hd]
      rw [hstep]
      exact ih hnd hlo hlon
    case otherError =>
      have hstep : send_loop d tid (p :: rest) acc
          = send_loop d tid rest { acc with failed_count := acc.failed_count + 1 } := by
        simp [send_loop, hd]
      rw [hstep]
      exact ih hnd hlo hlon

theorem alist_find_isSome_of_mem {α : Type} {l : List (Nat × α)} {p : Nat × α}
    (h : p ∈ l) : (alist_find l p.1).isSome := by
  induction l with
  | nil => simp at h
  | cons q t ih =>
    obtain ⟨a, w⟩ := q
    rcases List.mem_cons.mp h with heq | htail
    · subst heq
      simp [alist_find]
    · by_cases hak : a = p.1
      · simp [alist_find, hak]
      · simp only [alist_find, if_neg hak]
        exact ih htail

theorem alist_find_cons_self {α : Type} (a : Nat) (w : α) (l : List (Nat × α)) :
    alist_find ((a, w) :: l) a = some w := by
  simp [alist_find]

theorem alist_find_cons_ne {α : Type} {a k : Nat} (w : α) (l : List (Nat × α))
    (h : a ≠ k) : alist_find ((a, w) :: l) k = alist_find l k := by
  simp [alist_find, h]

theorem alist_find_mark_blocked (users : List (Nat × UserRec)) (blocked : List Nat)
    (k : Nat) :
    alist_find (mark_blocked users blocked) k
      = (alist_find users k).map
          (fun u => cond (blocked.contains k) { u with is_active := false } u) := by
  induction users with
  | nil => rfl
  | cons q t ih =>
    obtain ⟨a, w⟩ := q
    have hstep : mark_blocked ((a, w) :: t) blocked
        = cond (blocked.contains a) (a, { w with is_active := false }) (a, w)
            :: mark_blocked t blocked := rfl
    rw [hstep]
    by_cases hak : a = k
    · subst hak
      cases hb : blocked.contains a
      · simp only [hb, cond_false]
        rw [alist_find_cons_self, alist_find_cons_self]
        rfl
      · simp only [hb, cond_true]
        rw [alist_find_cons_self, alist_find_cons_self]
        rfl
    · cases hb : blocked.contains a
      · simp only [hb, cond_false]
        rw [alist_find_cons_ne _ _ hak, alist_find_cons_ne _ _ hak]
        exact ih
      · simp only [hb, cond_true]
        rw [alist_find_cons_ne _ _ hak, alist_find_cons_ne _ _ hak]
        exact ih

/-! State invariants. -/

/-- Number of this recipient's responses currently in status confirmed. -/
def confirmed_count (rs : List (Nat × RespRec)) (uid : Nat) : Nat :=
  (rs.filter (fun p =>
    decide (p.2.user_telegram_id = uid ∧ p.2.status = Status.confirmed))).length

/-- Number of this recipient's responses currently in status rejected or
slyot. -/
def failed_status_count (rs : List (Nat × RespRec)) (uid : Nat) : Nat :=
  (rs.filter (fun p =>
    decide (p.2.user_telegram_id = uid ∧
      (p.2.status = Status.rejected ∨ p.2.status = Status.slyot)))).length

/-- Counter invariant of the data model: each user row's success_count is
the number of its responses in confirmed, and its fail_count the number
in rejected or slyot. -/
def countersOk (st : St) : Prop :=
  ∀ uid u, alist_find st.users uid = some u →
    u.success_count = (confirmed_count st.responses uid : Int) ∧
    u.fail_count = (failed_status_count st.responses uid : Int)

/-- Every response row references an existing user row. -/
def responses_covered (st : St) : Prop :=
  ∀ p ∈ st.responses, (alist_find st.users p.2.user_telegram_id).isSome

/-- Response primary keys are distinct and below the autoincrement
source. -/
def resp_keys_ok (st : St) : Prop :=
  (st.responses.map Prod.fst).Nodup ∧ ∀ k ∈ st.responses.map Prod.fst, k < st.nextRespId

/-- Combined inductive invariant used for the counter and transition
theorems. -/
def Inv (st : St) : Prop :=
  resp_keys_ok st ∧ responses_covered st ∧ countersOk st

theorem confirmed_count_update {rs : List (Nat × RespRec)} {rid : Nat} {resp : RespRec}
    (hfind : alist_find rs rid = some resp) (f : RespRec → RespRec) (uid : Nat) :
    (confirmed_count (alist_update rs rid f) uid : Int)
      = (confirmed_count rs uid : Int)
        + (if (f resp).user_telegram_id = uid ∧ (f resp).status = Status.confirmed
           then 1 else 0)
        - (if resp.user_telegram_id = uid ∧ resp.status = Status.confirmed
           then 1 else 0) := by
  have h := length_filter_update
    (fun p => decide (p.2.user_telegram_id = uid ∧ p.2.status = Status.confirmed)) f hfind
  simp only [decide_eq_true_eq] at h
  unfold confirmed_count
  by_cases h1 : resp.user_telegram_id = uid ∧ resp.status = Status.confirmed <;>
    by_cases h2 : (f resp).user_telegram_id = uid ∧ (f resp).status = Status.confirmed <;>
      simp [h1, h2] at h ⊢ <;> omega

theorem failed_status_count_update {rs : List (Nat × RespRec)} {rid : Nat} {resp : RespRec}
    (hfind : alist_find rs rid = some resp) (f : RespRec → RespRec) (uid : Nat) :
    (failed_status_count (alist_update rs rid f) uid : Int)
      = (failed_status_count rs uid : Int)
        + (if (f resp).user_telegram_id = uid ∧
              ((f resp).status = Status.rejected ∨ (f resp).status = Status.slyot)
           then 1 else 0)
        - (if resp.user_telegram_id = uid ∧
              (resp.status = Status.rejected ∨ resp.status = Status.slyot)
           then 1 else 0) := by
  have h := length_filter_update
    (fun p => decide (p.2.user_telegram_id = uid ∧
      (p.2.status = Status.rejected ∨ p.2.status = Status.slyot))) f hfind
  simp only [decide_eq_true_eq] at h
  unfold failed_status_count
  by_cases h1 : resp.user_telegram_id = uid ∧
      (resp.status = Status.rejected ∨ resp.status = Status.slyot) <;>
    by_cases h2 : (f resp).user_telegram_id = uid ∧
        ((f resp).status = Status.rejected ∨ (f resp).status = Status.slyot) <;>
      simp [h1, h2] at h ⊢ <;> omega

theorem inv_core_eq {st st' : St} (h : Inv st) (hr : st'.responses = st.responses)
    (hu : st'.users = st.users) (hn : st'.nextRespId = st.nextRespId) : Inv st' := by
  unfold Inv resp_keys_ok responses_covered countersOk at h ⊢
  rw [hr, hu, hn]
  exact h

theorem inv_update_both {st : St} (h : Inv st) {rid : Nat} {resp : RespRec}
    (hfind : alist_find st.responses rid = some resp)
    (f : RespRec → RespRec) (g : UserRec → UserRec)
    (hfu : (f resp).user_telegram_id = resp.user_telegram_id)
    (ds df : Int)
    (hgs : ∀ u, (g u).success_count = u.success_count + ds)
    (hgf : ∀ u, (g u).fail_count = u.fail_count + df)
    (hds : (if (f resp).status = Status.confirmed then (1 : Int) else 0)
         - (if resp.status = Status.confirmed then (1 : Int) else 0) = ds)
    (hdf : (if (f resp).status = Status.rejected ∨ (f resp).status = Status.slyot
            then (1 : Int) else 0)
         - (if resp.status = Status.rejected ∨ resp.status = Status.slyot
            then (1 : Int) else 0) = df)
    (timers' : List Nat) (redis' : Bool) (ba' : Option Bool) :
    Inv { st with
          responses := alist_update st.responses rid f,
          users := alist_update st.users resp.user_telegram_id g,
          timers := timers', redisUp := redis', botActive := ba' } := by
  obtain ⟨⟨hnd, hbound⟩, hcov, hok⟩ := h
  have hmem : (rid, resp) ∈ st.responses := alist_find_mem hfind
  refine ⟨⟨?_, ?_⟩, ?_, ?_⟩
  · show ((alist_update st.responses rid f).map Prod.fst).Nodup
    rw [alist_update_map_fst]
    exact hnd
  · show ∀ k ∈ (alist_update st.responses rid f).map Prod.fst, k < st.nextRespId
    rw [alist_update_map_fst]
    exact hbound
  · intro p hp
    show (alist_find (alist_update st.users resp.user_telegram_id g)
      p.2.user_telegram_id).isSome
    rw [alist_find_isSome_update]
    rcases mem_alist_update hp with hold | ⟨v, hv, hpv⟩
    · exact hcov p hold
    · have hvresp : v = resp := by
        rw [hfind] at hv
        exact (Option.some.inj hv).symm
      subst hvresp
      subst hpv
      show (alist_find st.users (f v).user_telegram_id).isSome
      rw [hfu]
      exact hcov _ hmem
  · intro uid u' hfind'
    replace hfind' : alist_find (alist_update st.users resp.user_telegram_id g) uid
        = some u' := hfind'
    show u'.success_count = (confirmed_count (alist_update st.responses rid f) uid : Int)
      ∧ u'.fail_count = (failed_status_count (alist_update st.responses rid f) uid : Int)
    have hcc := confirmed_count_update hfind f uid
    have hfc := failed_status_count_update hfind f uid
    by_cases huid : uid = resp.user_telegram_id
    · subst huid
      have hu0s : (alist_find st.users resp.user_telegram_id).isSome := hcov _ hmem
      obtain ⟨u0, hu0⟩ := Option.isSome_iff_exists.mp hu0s
      rw [alist_find_update_self g hu0] at hfind'
      have hu' : u' = g u0 := (Option.some.inj hfind').symm
      subst hu'
      obtain ⟨hs0, hf0⟩ := hok _ u0 hu0
      rw [hfu] at hcc hfc
      simp only [eq_self_iff_true, true_and] at hcc hfc
      constructor
      · rw [hgs u0, hs0, hcc, ← hds]
        ring
      · rw [hgf u0, hf0, hfc, ← hdf]
        ring
    · rw [alist_find_update_other g huid] at hfind'
      obtain ⟨hs0, hf0⟩ := hok uid u' hfind'
      have hne1 : ¬(resp.user_telegram_id = uid) := fun hh => huid hh.symm
      have hne2 : ¬((f resp).user_telegram_id = uid) := by
        rw [hfu]
        exact hne1
      simp only [hne1, hne2, false_and, if_false] at hcc hfc
      constructor
      · rw [hs0]
        omega
      · rw [hf0]
        omega

/-! Path characterizations of the handlers. -/

theorem alist_find_append_left {α : Type} {l l' : List (Nat × α)} {k : Nat} {v : α}
    (h : alist_find l k = some v) : alist_find (l ++ l') k = some v := by
  rw [alist_find_append, h]

theorem alist_find_append_right {α : Type} {l l' : List (Nat × α)} {k : Nat}
    (h : alist_find l k = none) : alist_find (l ++ l') k = alist_find l' k := by
  rw [alist_find_append, h]

theorem mod_invalid_eq {st : St} {rid : Nat} {resp : RespRec} {u : UserRec}
    (a : ModAction)
    (hfind : alist_find st.responses rid = some resp)
    (hu : alist_find st.users resp.user_telegram_id = some u)
    (hst : resp.status ≠ Status.success_pending_admin) :
    handle_admin_moderation st rid a = (.invalidTransition, st) := by
  simp [handle_admin_moderation, hfind, hu, hst]

theorem mod_confirm_eq {st : St} {rid : Nat} {resp : RespRec} {u : UserRec}
    (hfind : alist_find st.responses rid = some resp)
    (hu : alist_find st.users resp.user_telegram_id = some u)
    (hst : resp.status = Status.success_pending_admin) :
    handle_admin_moderation st rid .confirm
      = (.confirmedOk,
         { st with
           responses := alist_update st.responses rid
             (fun r => { r with status := Status.confirmed }),
           users := alist_update st.users resp.user_telegram_id
             (fun v => { v with success_count := v.success_count + 1 }) }) := by
  simp [handle_admin_moderation, hfind, hu, hst]

theorem mod_reject_eq {st : St} {rid : Nat} {resp : RespRec} {u : UserRec}
    (hfind : alist_find st.responses rid = some resp)
    (hu : alist_find st.users resp.user_telegram_id = some u)
    (hst : resp.status = Status.success_pending_admin) :
    handle_admin_moderation st rid .reject
      = (.rejectedOk,
         { st with
           responses := alist_update st.responses rid
             (fun r => { r with status := Status.rejected }),
           users := alist_update st.users resp.user_telegram_id
             (fun v => { v with fail_count := v.fail_count + 1 }) }) := by
  simp [handle_admin_moderation, hfind, hu, hst]

theorem slyot_mark_invalid_eq {st : St} {rid : Nat} {resp : RespRec} {u : UserRec}
    (c : Bool)
    (hfind : alist_find st.responses rid = some resp)
    (hu : alist_find st.users resp.user_telegram_id = some u)
    (hst : resp.status ≠ Status.confirmed) :
    handle_admin_slyot_action st rid .mark c = (.invalidTransition, st) := by
  simp [handle_admin_slyot_action, hfind, hu, hst]

theorem slyot_mark_eq {st : St} {rid : Nat} {resp : RespRec} {u : UserRec}
    (hfind : alist_find st.responses rid = some resp)
    (hu : alist_find st.users resp.user_telegram_id = some u)
    (hst : resp.status = Status.confirmed) :
    handle_admin_slyot_action st rid .mark true
      = ((.markedOk st.redisUp),
         { st with
           responses := alist_update st.responses rid
             (fun r => { r with status := Status.slyot }),
           users := alist_update st.users resp.user_telegram_id
             (fun v => { v with success_count := v.success_count - 1,
                                fail_count := v.fail_count + 1 }),
           timers := if st.redisUp then
               (if rid ∈ st.timers then st.timers else rid :: st.timers)
             else st.timers }) := by
  cases hr : st.redisUp <;>
    simp [handle_admin_slyot_action, hfind, hu, hst, set_slyot_cancel_timer, hr]

theorem slyot_mark_db_eq {st : St} {rid : Nat} {resp : RespRec} {u : UserRec}
    (hfind : alist_find st.responses rid = some resp)
    (hu : alist_find st.users resp.user_telegram_id = some u)
    (hst : resp.status = Status.confirmed) :
    handle_admin_slyot_action st rid .mark false = (.dbError, st) := by
  simp [handle_admin_slyot_action, hfind, hu, hst]

theorem slyot_cancel_invalid_eq {st : St} {rid : Nat} {resp : RespRec} {u : UserRec}
    (c : Bool)
    (hfind : alist_find st.responses rid = some resp)
    (hu : alist_find st.users resp.user_telegram_id = some u)
    (hst : resp.status ≠ Status.slyot) :
    handle_admin_slyot_action st rid .cancel c = (.invalidTransition, st) := by
  simp [handle_admin_slyot_action, hfind, hu, hst]

theorem slyot_cancel_expired_eq {st : St} {rid : Nat} {resp : RespRec} {u : UserRec}
    (c : Bool)
    (hfind : alist_find st.responses rid = some resp)
    (hu : alist_find st.users resp.user_telegram_id = some u)
    (hst : resp.status = Status.slyot)
    (htimer : check_slyot_cancel_timer st rid = false) :
    handle_admin_slyot_action st rid .cancel c = (.windowExpired, st) := by
  simp [handle_admin_slyot_action, hfind, hu, hst, htimer]

theorem slyot_cancel_eq {st : St} {rid : Nat} {resp : RespRec} {u : UserRec}
    (hfind : alist_find st.responses rid = some resp)
    (hu : alist_find st.users resp.user_telegram_id = some u)
    (hst : resp.status = Status.slyot)
    (htimer : check_slyot_cancel_timer st rid = true) :
    handle_admin_slyot_action st rid .cancel true
      = (.canceledOk,
         { st with
           responses := alist_update st.responses rid
             (fun r => { r with status := Status.confirmed }),
           users := alist_update st.users resp.user_telegram_id
             (fun v => { v with fail_count := v.fail_count - 1,
                                success_count := v.success_count + 1 }),
           timers := st.timers.filter (fun k => k != rid) }) := by
  have hr : st.redisUp = true := by
    unfold check_slyot_cancel_timer at htimer
    exact (Bool.and_eq_true_iff.mp htimer).1
  simp [handle_admin_slyot_action, hfind, hu, hst, htimer, clear_slyot_cancel_timer, hr]

theorem slyot_cancel_db_eq {st : St} {rid : Nat} {resp : RespRec} {u : UserRec}
    (hfind : alist_find st.responses rid = some resp)
    (hu : alist_find st.users resp.user_telegram_id = some u)
    (hst : resp.status = Status.slyot)
    (htimer : check_slyot_cancel_timer st rid = true) :
    handle_admin_slyot_action st rid .cancel false
      = (.dbError, { st with timers := st.timers.filter (fun k => k != rid) }) := by
  have hr : st.redisUp = true := by
    unfold check_slyot_cancel_timer at htimer
    exact (Bool.and_eq_true_iff.mp htimer).1
  simp [handle_admin_slyot_action, hfind, hu, hst, htimer, clear_slyot_cancel_timer, hr]

theorem user_resp_already_eq {st : St} {uid tid rid : Nat} {resp : RespRec}
    (a : UserAction)
    (hfr : find_user_response st.responses uid tid = some (rid, resp))
    (hst : resp.status ≠ Status.pending_user) :
    handle_user_task_response st uid tid a = (.alreadyResponded, st) := by
  simp [handle_user_task_response, hfr, hst]

theorem user_resp_success_eq {st : St} {uid tid rid : Nat} {resp : RespRec} {task : TaskRec}
    (hfr : find_user_response st.responses uid tid = some (rid, resp))
    (hst : resp.status = Status.pending_user)
    (htask : alist_find st.tasks tid = some task) :
    handle_user_task_response st uid tid .task_success
      = (.internalError,
         { st with
           responses := alist_update st.responses rid
             (fun r => { r with status := Status.success_pending_admin }) }) := by
  simp [handle_user_task_response, hfr, hst, htask]

theorem send_paused_eq {st : St} (admin_id photo : Nat) (d : Nat → Delivery)
    (hpause : is_bot_globally_active st = false) :
    send_photo_execute st admin_id (some photo) d = (.botPaused, st) := by
  simp [send_photo_execute, hpause]

theorem send_no_active_eq {st : St} (aid photo : Nat) (d : Nat → Delivery)
    (hact : is_bot_globally_active st = true)
    (hempty : st.users.filter (fun p => p.2.is_active) = []) :
    send_photo_execute st aid (some photo) d
      = (.noActiveUsers st.nextTaskId,
         { st with
           tasks := st.tasks ++
             [(st.nextTaskId, { admin_telegram_id := aid, photo_file_id := photo })],
           nextTaskId := st.nextTaskId + 1 }) := by
  simp [send_photo_execute, hact, hempty]

theorem send_main_eq {st : St} {q : Nat × UserRec} {qs : List (Nat × UserRec)}
    (aid photo : Nat) (d : Nat → Delivery)
    (hact : is_bot_globally_active st = true)
    (hfl : st.users.filter (fun p => p.2.is_active) = q :: qs) :
    send_photo_execute st aid (some photo) d
      = (.sent st.nextTaskId
           (send_loop d st.nextTaskId (q :: qs)
             { sent_count := 0, failed_count := 0, new_responses := [], blocked := [],
               next_id := st.nextRespId }).sent_count
           (send_loop d st.nextTaskId (q :: qs)
             { sent_count := 0, failed_count := 0, new_responses := [], blocked := [],
               next_id := st.nextRespId }).failed_count,
         { st with
           tasks := st.tasks ++
             [(st.nextTaskId, { admin_telegram_id := aid, photo_file_id := photo })],
           nextTaskId := st.nextTaskId + 1,
           responses := st.responses ++
             (send_loop d st.nextTaskId (q :: qs)
               { sent_count := 0, failed_count := 0, new_responses := [], blocked := [],
                 next_id := st.nextRespId }).new_responses,
           users := mark_blocked st.users
             (send_loop d st.nextTaskId (q :: qs)
               { sent_count := 0, failed_count := 0, new_responses := [], blocked := [],
                 next_id := st.nextRespId }).blocked,
           nextRespId :=
             (send_loop d st.nextTaskId (q :: qs)
               { sent_count := 0, failed_count := 0, new_responses := [], blocked := [],
                 next_id := st.nextRespId }).next_id }) := by
  simp [send_photo_execute, hact, hfl]

/-! Preservation of the invariant by every operation. -/

theorem count_zero_of_uncovered {st : St} (hcov : responses_covered st) {uid : Nat}
    (hnone : alist_find st.users uid = none) :
    confirmed_count st.responses uid = 0 ∧ failed_status_count st.responses uid = 0 := by
  have hnot : ∀ p ∈ st.responses, p.2.user_telegram_id ≠ uid := by
    intro p hp heq
    have hc := hcov p hp
    rw [heq, hnone] at hc
    simp at hc
  constructor
  · have hnil : st.responses.filter
        (fun p => decide (p.2.user_telegram_id = uid ∧ p.2.status = Status.confirmed))
        = [] := by
      rw [List.filter_eq_nil_iff]
      intro p hp
      simp only [decide_eq_true_eq]
      exact fun hq => hnot p hp hq.1
    unfold confirmed_count
    rw [hnil]
    rfl
  · have hnil : st.responses.filter
        (fun p => decide (p.2.user_telegram_id = uid ∧
          (p.2.status = Status.rejected ∨ p.2.status = Status.slyot))) = [] := by
      rw [List.filter_eq_nil_iff]
      intro p hp
      simp only [decide_eq_true_eq]
      exact fun hq => hnot p hp hq.1
    unfold failed_status_count
    rw [hnil]
    rfl

theorem inv_toggleGlobal {st : St} (h : Inv st) : Inv (toggle_global_bot_status st) :=
  inv_core_eq h rfl rfl rfl

theorem inv_start_command {st : St} (h : Inv st) (uid : Nat) :
    Inv (start_command st uid) := by
  obtain ⟨hkeys, hcov, hok⟩ := h
  unfold start_command
  by_cases hadm : uid ∈ st.admins
  · rw [if_pos hadm]
    exact ⟨hkeys, hcov, hok⟩
  · rw [if_neg hadm]
    cases hfind : alist_find st.users uid with
    | some u => exact ⟨hkeys, hcov, hok⟩
    | none =>
      refine ⟨hkeys, ?_, ?_⟩
      · intro p hp
        show (alist_find
          (st.users ++ [(uid, { is_active := true, success_count := 0, fail_count := 0 })])
          p.2.user_telegram_id).isSome
        obtain ⟨v, hv⟩ := Option.isSome_iff_exists.mp (hcov p hp)
        rw [alist_find_append_left hv]
        rfl
      · intro uid' u' hfind'
        replace hfind' : alist_find
            (st.users ++ [(uid, { is_active := true, success_count := 0, fail_count := 0 })])
            uid' = some u' := hfind'
        show u'.success_count = (confirmed_count st.responses uid' : Int)
          ∧ u'.fail_count = (failed_status_count st.responses uid' : Int)
        cases hf : alist_find st.users uid' with
        | some u0 =>
          rw [alist_find_append_left hf] at hfind'
          have : u0 = u' := Option.some.inj hfind'
          subst this
          exact hok uid' u0 hf
        | none =>
          rw [alist_find_append_right hf] at hfind'
          by_cases huid : uid = uid'
          · subst huid
            rw [alist_find_cons_self] at hfind'
            obtain ⟨hc0, hf0⟩ := count_zero_of_uncovered hcov hf
            rw [hc0, hf0, ← Option.some.inj hfind']
            constructor <;> rfl
          · rw [alist_find_cons_ne _ _ huid] at hfind'
            simp [alist_find] at hfind'

theorem inv_toggleUser {st : St} (h : Inv st) (uid : Nat) (b : Bool) :
    Inv (toggle_user_bot_status st uid b) := by
  obtain ⟨hkeys, hcov, hok⟩ := h
  cases hfind : alist_find st.users uid with
  | none => simpa [toggle_user_bot_status, hfind] using ⟨hkeys, hcov, hok⟩
  | some u =>
    by_cases hb : u.is_active = b
    · simpa [toggle_user_bot_status, hfind, hb] using ⟨hkeys, hcov, hok⟩
    · have hstep : toggle_user_bot_status st uid b
          = { st with
              users := alist_update st.users uid
                (fun v => { v with is_active := b }) } := by
        simp [toggle_user_bot_status, hfind, hb]
      rw [hstep]
      refine ⟨hkeys, ?_, ?_⟩
      · intro p hp
        show (alist_find
          (alist_update st.users uid (fun v => { v with is_active := b }))
          p.2.user_telegram_id).isSome
        rw [alist_find_isSome_update]
        exact hcov p hp
      · intro uid' u' hfind'
        replace hfind' : alist_find
            (alist_update st.users uid (fun v => { v with is_active := b })) uid'
            = some u' := hfind'
        show u'.success_count = (confirmed_count st.responses uid' : Int)
          ∧ u'.fail_count = (failed_status_count st.responses uid' : Int)
        by_cases huid : uid' = uid
        · subst huid
          rw [alist_find_update_self _ hfind] at hfind'
          rw [← Option.some.inj hfind']
          exact hok uid' u hfind
        · rw [alist_find_update_other _ huid] at hfind'
          exact hok uid' u' hfind'

theorem inv_resp_only_update {st : St} (h : Inv st) {rid : Nat} {resp : RespRec}
    (hfind : alist_find st.responses rid = some resp) (f : RespRec → RespRec)
    (hfu : (f resp).user_telegram_id = resp.user_telegram_id)
    (hconf : ((f resp).status = Status.confirmed ↔ resp.status = Status.confirmed))
    (hfail : (((f resp).status = Status.rejected ∨ (f resp).status = Status.slyot)
              ↔ (resp.status = Status.rejected ∨ resp.status = Status.slyot))) :
    Inv { st with responses := alist_update st.responses rid f } := by
  obtain ⟨⟨hnd, hbound⟩, hcov, hok⟩ := h
  refine ⟨⟨?_, ?_⟩, ?_, ?_⟩
  · show ((alist_update st.responses rid f).map Prod.fst).Nodup
    rw [alist_update_map_fst]
    exact hnd
  · show ∀ k ∈ (alist_update st.responses rid f).map Prod.fst, k < st.nextRespId
    rw [alist_update_map_fst]
    exact hbound
  · intro p hp
    show (alist_find st.users p.2.user_telegram_id).isSome
    rcases mem_alist_update hp with hold | ⟨v, hv, hpv⟩
    · exact hcov p hold
    · have hvresp : v = resp := by
        rw [hfind] at hv
        exact (Option.some.inj hv).symm
      subst hvresp
      subst hpv
      show (alist_find st.users (f v).user_telegram_id).isSome
      rw [hfu]
      exact hcov _ (alist_find_mem hfind)
  · intro uid u' hfind'
    show u'.success_count = (confirmed_count (alist_update st.responses rid f) uid : Int)
      ∧ u'.fail_count = (failed_status_count (alist_update st.responses rid f) uid : Int)
    have hcc := confirmed_count_update hfind f uid
    have hfc := failed_status_count_update hfind f uid
    rw [hfu] at hcc hfc
    simp only [hconf, hfail] at hcc hfc
    obtain ⟨hs0, hf0⟩ := hok uid u' hfind'
    constructor
    · rw [hs0, hcc]
      ring
    · rw [hf0, hfc]
      ring

theorem inv_userResp {st : St} (h : Inv st) (uid tid : Nat) (a : UserAction) :
    Inv (handle_user_task_response st uid tid a).2 := by
  cases hfr : find_user_response st.responses uid tid with
  | none => simpa [handle_user_task_response, hfr] using h
  | some found =>
    obtain ⟨rid, resp⟩ := found
    by_cases hst : resp.status = Status.pending_user
    · cases htask : alist_find st.tasks tid with
      | none => simpa [handle_user_task_response, hfr, hst, htask] using h
      | some task =>
        cases a with
        | unknown => simpa [handle_user_task_response, hfr, hst, htask] using h
        | task_success =>
          rw [user_resp_success_eq hfr hst htask]
          have hfind : alist_find st.responses rid = some resp :=
            alist_find_eq_some_of_mem h.1.1 (List.mem_of_find?_eq_some hfr)
          exact inv_resp_only_update h hfind _ rfl (by simp [hst]) (by simp [hst])
    · rw [user_resp_already_eq a hfr hst]
      exact h

theorem inv_modAction {st : St} (h : Inv st) (rid : Nat) (a : ModAction) :
    Inv (handle_admin_moderation st rid a).2 := by
  cases hfind : alist_find st.responses rid with
  | none => simpa [handle_admin_moderation, hfind] using h
  | some resp =>
    cases hu : alist_find st.users resp.user_telegram_id with
    | none => simpa [handle_admin_moderation, hfind, hu] using h
    | some u =>
      by_cases hst : resp.status = Status.success_pending_admin
      · cases a with
        | confirm =>
          rw [mod_confirm_eq hfind hu hst]
          exact inv_update_both h hfind _ _ rfl 1 0
            (fun v => rfl) (fun v => by ring) (by simp [hst]) (by simp [hst])
            st.timers st.redisUp st.botActive
        | reject =>
          rw [mod_reject_eq hfind hu hst]
          exact inv_update_both h hfind _ _ rfl 0 1
            (fun v => by ring) (fun v => rfl) (by simp [hst]) (by simp [hst])
            st.timers st.redisUp st.botActive
        | unknown => simpa [handle_admin_moderation, hfind, hu, hst] using h
      · rw [mod_invalid_eq a hfind hu hst]
        exact h

theorem inv_slyotAct {st : St} (h : Inv st) (rid : Nat) (a : SlyotAction) (c : Bool) :
    Inv (handle_admin_slyot_action st rid a c).2 := by
  cases hfind : alist_find st.responses rid with
  | none => simpa [handle_admin_slyot_action, hfind] using h
  | some resp =>
    cases hu : alist_find st.users resp.user_telegram_id with
    | none => simpa [handle_admin_slyot_action, hfind, hu] using h
    | some u =>
      cases a with
      | unknown => simpa [handle_admin_slyot_action, hfind, hu] using h
      | mark =>
        by_cases hst : resp.status = Status.confirmed
        · cases c with
          | false =>
            rw [slyot_mark_db_eq hfind hu hst]
            exact h
          | true =>
            rw [slyot_mark_eq hfind hu hst]
            exact inv_update_both h hfind _ _ rfl (-1) 1
              (fun v => by ring) (fun v => rfl) (by simp [hst]) (by simp [hst])
              _ st.redisUp st.botActive
        · rw [slyot_mark_invalid_eq c hfind hu hst]
          exact h
      | cancel =>
        by_cases hst : resp.status = Status.slyot
        · cases htimer : check_slyot_cancel_timer st rid with
          | false =>
            rw [slyot_cancel_expired_eq c hfind hu hst htimer]
            exact h
          | true =>
            cases c with
            | false =>
              rw [slyot_cancel_db_eq hfind hu hst htimer]
              exact inv_core_eq h rfl rfl rfl
            | true =>
              rw [slyot_cancel_eq hfind hu hst htimer]
              exact inv_update_both h hfind _ _ rfl 1 (-1)
                (fun v => rfl) (fun v => by ring) (by simp [hst]) (by simp [hst])
                _ st.redisUp st.botActive
        · rw [slyot_cancel_invalid_eq c hfind hu hst]
          exact h

theorem send_loop_status {d : Nat → Delivery} {tid : Nat} {us : List (Nat × UserRec)}
    {st0 : Nat} {p : Nat × RespRec}
    (hp : p ∈ (send_loop d tid us
      { sent_count := 0, failed_count := 0, new_responses := [], blocked := [],
        next_id := st0 }).new_responses) :
    p.2.status = Status.pending_user ∧ ∃ x ∈ us, p.2.user_telegram_id = x.1 := by
  have hmem := List.mem_map_of_mem Prod.snd hp
  rw [send_loop_responses] at hmem
  simp only [List.map_nil, List.nil_append, List.mem_map] at hmem
  obtain ⟨x, hx, hxe⟩ := hmem
  refine ⟨?_, ⟨x, List.mem_of_mem_filter hx, ?_⟩⟩
  · rw [← hxe]
    rfl
  · rw [← hxe]
    rfl

theorem inv_sendPhoto {st : St} (h : Inv st) (aid : Nat) (ph : Option Nat)
    (d : Nat → Delivery) : Inv (send_photo_execute st aid ph d).2 := by
  obtain ⟨⟨hnd, hbound⟩, hcov, hok⟩ := h
  cases ph with
  | none => simpa [send_photo_execute] using ⟨⟨hnd, hbound⟩, hcov, hok⟩
  | some photo =>
    cases hact : is_bot_globally_active st with
    | false =>
      rw [send_paused_eq aid photo d hact]
      exact ⟨⟨hnd, hbound⟩, hcov, hok⟩
    | true =>
      cases hfl : st.users.filter (fun p => p.2.is_active) with
      | nil =>
        rw [send_no_active_eq aid photo d hact hfl]
        exact inv_core_eq ⟨⟨hnd, hbound⟩, hcov, hok⟩ rfl rfl rfl
      | cons q qs =>
        rw [send_main_eq aid photo d hact hfl]
        have hloop := @send_loop_keys d st.nextTaskId (q :: qs) st.nextRespId
          { sent_count := 0, failed_count := 0, new_responses := [], blocked := [],
            next_id := st.nextRespId }
          (by simp) (by simp) (le_refl _)
        obtain ⟨hknd, hkbnd, hkle⟩ := hloop
        refine ⟨⟨?_, ?_⟩, ?_, ?_⟩
        · show ((st.responses ++ _).map Prod.fst).Nodup
          rw [List.map_append]
          refine List.Nodup.append hnd hknd ?_
          intro a ha hb
          have h1 := hbound a ha
          have h2 := (hkbnd a hb).1
          omega
        · intro k hk
          rw [List.map_append, List.mem_append] at hk
          show k < (send_loop d st.nextTaskId (q :: qs)
            { sent_count := 0, failed_count := 0, new_responses := [], blocked := [],
              next_id := st.nextRespId }).next_id
          rcases hk with hk | hk
          · have := hbound k hk
            omega
          · exact (hkbnd k hk).2
        · intro p hp
          rw [List.mem_append] at hp
          show (alist_find (mark_blocked st.users _) p.2.user_telegram_id).isSome
          rw [alist_find_mark_blocked, Option.isSome_map']
          rcases hp with hp | hp
          · exact hcov p hp
          · obtain ⟨_, x, hxmem, hxu⟩ := send_loop_status hp
            have hxin : x ∈ st.users := by
              have : x ∈ st.users.filter (fun p => p.2.is_active) := hfl ▸ hxmem
              exact List.mem_of_mem_filter this
            rw [hxu]
            exact alist_find_isSome_of_mem hxin
        · intro uid u' hfind'
          replace hfind' : alist_find (mark_blocked st.users
              (send_loop d st.nextTaskId (q :: qs)
                { sent_count := 0, failed_count := 0, new_responses := [], blocked := [],
                  next_id := st.nextRespId }).blocked) uid = some u' := hfind'
          rw [alist_find_mark_blocked] at hfind'
          obtain ⟨u0, hu0, hgu⟩ := Option.map_eq_some'.mp hfind'
          have hs : u'.success_count = u0.success_count := by
            rw [← hgu]
            cases ((send_loop d st.nextTaskId (q :: qs)
              { sent_count := 0, failed_count := 0, new_responses := [], blocked := [],
                next_id := st.nextRespId }).blocked).contains uid <;> rfl
          have hf : u'.fail_count = u0.fail_count := by
            rw [← hgu]
            cases ((send_loop d st.nextTaskId (q :: qs)
              { sent_count := 0, failed_count := 0, new_responses := [], blocked := [],
                next_id := st.nextRespId }).blocked).contains uid <;> rfl
          obtain ⟨hs0, hf0⟩ := hok uid u0 hu0
          have hnilc : ∀ (P : Nat × RespRec → Bool),
              (∀ r : RespRec, r.status = Status.pending_user → ∀ k : Nat, P (k, r) = false) →
              ((send_loop d st.nextTaskId (q :: qs)
                { sent_count := 0, failed_count := 0, new_responses := [], blocked := [],
                  next_id := st.nextRespId }).new_responses).filter P = [] := by
            intro P hP
            rw [List.filter_eq_nil_iff]
            intro p hp
            have hps := (send_loop_status hp).1
            rw [show p = (p.1, p.2) from rfl, hP p.2 hps p.1]
            simp
          constructor
          · show u'.success_count = (confirmed_count (st.responses ++ _) uid : Int)
            unfold confirmed_count
            rw [List.filter_append, hnilc _ ?side1, List.append_nil]
            · rw [hs]
              exact hs0
            case side1 =>
              intro r hr k
              simp only [decide_eq_false_iff_not]
              rw [hr]
              rintro ⟨-, hcontra⟩
              exact Status.noConfusion hcontra
          · show u'.fail_count = (failed_status_count (st.responses ++ _) uid : Int)
            unfold failed_status_count
            rw [List.filter_append, hnilc _ ?side2, List.append_nil]
            · rw [hf]
              exact hf0
            case side2 =>
              intro r hr k
              simp only [decide_eq_false_iff_not]
              rw [hr]
              rintro ⟨-, hcontra | hcontra⟩ <;> exact Status.noConfusion hcontra

/-- Every operation preserves the combined invariant. -/
theorem inv_run {st : St} (h : Inv st) (op : Op) : Inv (run st op) := by
  cases op with
  | startCmd uid => exact inv_start_command h uid
  | toggleUser uid b => exact inv_toggleUser h uid b
  | userResp uid tid a => exact inv_userResp h uid tid a
  | modAction rid a => exact inv_modAction h rid a
  | slyotAct rid a c => exact inv_slyotAct h rid a c
  | sendPhoto aid ph d => exact inv_sendPhoto h aid ph d
  | toggleGlobal => exact inv_toggleGlobal h

/-- A freshly bootstrapped deployment satisfies the invariant. -/
theorem inv_init (admins : List Nat) (redisUp : Bool) : Inv (init admins redisUp) := by
  refine ⟨⟨?_, ?_⟩, ?_, ?_⟩
  · simp [init]
  · intro k hk
    simp [init] at hk
  · intro p hp
    simp [init] at hp
  · intro uid u hfind
    simp [init, alist_find] at hfind

/-- The combined invariant holds in every reachable state. -/
theorem inv_reachable {admins : List Nat} {redisUp : Bool} {st : St}
    (h : reachable admins redisUp st) : Inv st := by
  induction h with
  | refl => exact inv_init admins redisUp
  | tail _ hstep ih =>
    obtain ⟨op, hop⟩ := hstep
    rw [hop]
    exact inv_run ih op

/-! Transition-table facts. -/

/-- Edges of the transition table in section 4.1 of the specification,
written with the status strings the code uses (pending_recipient is
pending_user, pending_operator is success_pending_admin, flagged_invalid
is slyot). -/
def specEdge : Status → Status → Bool
  | .pending_user, .success_pending_admin => true
  | .success_pending_admin, .confirmed => true
  | .success_pending_admin, .rejected => true
  | .confirmed, .slyot => true
  | .slyot, .confirmed => true
  | _, _ => false

/-- Effect of one operation on the responses table: unchanged, a single
status write along a table edge, or rows appended in the initial
status. -/
theorem run_responses_char {st : St} (hnd : (st.responses.map Prod.fst).Nodup)
    (op : Op) :
    (run st op).responses = st.responses
    ∨ (∃ rid resp snew,
        alist_find st.responses rid = some resp
        ∧ specEdge resp.status snew = true
        ∧ (run st op).responses
            = alist_update st.responses rid (fun r => { r with status := snew }))
    ∨ (∃ new, (run st op).responses = st.responses ++ new
        ∧ ∀ p ∈ new, p.2.status = Status.pending_user) := by
  cases op with
  | startCmd uid =>
    left
    show (start_command st uid).responses = st.responses
    unfold start_command
    by_cases hadm : uid ∈ st.admins
    · rw [if_pos hadm]
    · rw [if_neg hadm]
      cases alist_find st.users uid <;> rfl
  | toggleUser uid b =>
    left
    show (toggle_user_bot_status st uid b).responses = st.responses
    unfold toggle_user_bot_status
    cases alist_find st.users uid with
    | none => rfl
    | some u =>
      show (if u.is_active = b then st
            else { st with
                   users := alist_update st.users uid
                     (fun v => { v with is_active := b }) }).responses = st.responses
      by_cases hb : u.is_active = b
      · rw [if_pos hb]
      · rw [if_neg hb]
  | toggleGlobal =>
    left
    rfl
  | userResp uid tid a =>
    cases hfr : find_user_response st.responses uid tid with
    | none =>
      left
      show (handle_user_task_response st uid tid a).2.responses = st.responses
      simp [handle_user_task_response, hfr]
    | some found =>
      obtain ⟨rid, resp⟩ := found
      by_cases hst : resp.status = Status.pending_user
      · cases htask : alist_find st.tasks tid with
        | none =>
          left
          show (handle_user_task_response st uid tid a).2.responses = st.responses
          simp [handle_user_task_response, hfr, hst, htask]
        | some task =>
          cases a with
          | unknown =>
            left
            show (handle_user_task_response st uid tid .unknown).2.responses
              = st.responses
            simp [handle_user_task_response, hfr, hst, htask]
          | task_success =>
            right
            left
            have hfind : alist_find st.responses rid = some resp :=
              alist_find_eq_some_of_mem hnd (List.mem_of_find?_eq_some hfr)
            refine ⟨rid, resp, Status.success_pending_admin, hfind, ?_, ?_⟩
            · rw [hst]
              rfl
            · show (handle_user_task_response st uid tid .task_success).2.responses = _
              rw [user_resp_success_eq hfr hst htask]
      · left
        show (handle_user_task_response st uid tid a).2.responses = st.responses
        rw [user_resp_already_eq a hfr hst]
  | modAction rid a =>
    cases hfind : alist_find st.responses rid with
    | none =>
      left
      show (handle_admin_moderation st rid a).2.responses = st.responses
      simp [handle_admin_moderation, hfind]
    | some resp =>
      cases hu : alist_find st.users resp.user_telegram_id with
      | none =>
        left
        show (handle_admin_moderation st rid a).2.responses = st.responses
        simp [handle_admin_moderation, hfind, hu]
      | some u =>
        by_cases hst : resp.status = Status.success_pending_admin
        · cases a with
          | confirm =>
            right
            left
            refine ⟨rid, resp, Status.confirmed, hfind, ?_, ?_⟩
            · rw [hst]
              rfl
            · show (handle_admin_moderation st rid .confirm).2.responses = _
              rw [mod_confirm_eq hfind hu hst]
          | reject =>
            right
            left
            refine ⟨rid, resp, Status.rejected, hfind, ?_, ?_⟩
            · rw [hst]
              rfl
            · show (handle_admin_moderation st rid .reject).2.responses = _
              rw [mod_reject_eq hfind hu hst]
          | unknown =>
            left
            show (handle_admin_moderation st rid .unknown).2.responses = st.responses
            simp [handle_admin_moderation, hfind, hu, hst]
        · left
          show (handle_admin_moderation st rid a).2.responses = st.responses
          rw [mod_invalid_eq a hfind hu hst]
  | slyotAct rid a c =>
    cases hfind : alist_find st.responses rid with
    | none =>
      left
      show (handle_admin_slyot_action st rid a c).2.responses = st.responses
      simp [handle_admin_slyot_action, hfind]
    | some resp =>
      cases hu : alist_find st.users resp.user_telegram_id with
      | none =>
        left
        show (handle_admin_slyot_action st rid a c).2.responses = st.responses
        simp [handle_admin_slyot_action, hfind, hu]
      | some u =>
        cases a with
        | unknown =>
          left
          show (handle_admin_slyot_action st rid .unknown c).2.responses = st.responses
          simp [handle_admin_slyot_action, hfind, hu]
        | mark =>
          by_cases hst : resp.status = Status.confirmed
          · cases c with
            | false =>
              left
              show (handle_admin_slyot_action st rid .mark false).2.responses
                = st.responses
              rw [slyot_mark_db_eq hfind hu hst]
            | true =>
              right
              left
              refine ⟨rid, resp, Status.slyot, hfind, ?_, ?_⟩
              · rw [hst]
                rfl
              · show (handle_admin_slyot_action st rid .mark true).2.responses = _
                rw [slyot_mark_eq hfind hu hst]
          · left
            show (handle_admin_slyot_action st rid .mark c).2.responses = st.responses
            rw [slyot_mark_invalid_eq c hfind hu hst]
        | cancel =>
          by_cases hst : resp.status = Status.slyot
          · cases htimer : check_slyot_cancel_timer st rid with
            | false =>
              left
              show (handle_admin_slyot_action st rid .cancel c).2.responses
                = st.responses
              rw [slyot_cancel_expired_eq c hfind hu hst htimer]
            | true =>
              cases c with
              | false =>
                left
                show (handle_admin_slyot_action st rid .cancel false).2.responses
                  = st.responses
                rw [slyot_cancel_db_eq hfind hu hst htimer]
              | true =>
                right
                left
                refine ⟨rid, resp, Status.confirmed, hfind, ?_, ?_⟩
                · rw [hst]
                  rfl
                · show (handle_admin_slyot_action st rid .cancel true).2.responses = _
                  rw [slyot_cancel_eq hfind hu hst htimer]
          · left
            show (handle_admin_slyot_action st rid .cancel c).2.responses = st.responses
            rw [slyot_cancel_invalid_eq c hfind hu hst]
  | sendPhoto aid ph d =>
    cases ph with
    | none =>
      left
      show (send_photo_execute st aid none d).2.responses = st.responses
      simp [send_photo_execute]
    | some photo =>
      cases hact : is_bot_globally_active st with
      | false =>
        left
        show (send_photo_execute st aid (some photo) d).2.responses = st.responses
        rw [send_paused_eq aid photo d hact]
      | true =>
        cases hfl : st.users.filter (fun p => p.2.is_active) with
        | nil =>
          left
          show (send_photo_execute st aid (some photo) d).2.responses = st.responses
          rw [send_no_active_eq aid photo d hact hfl]
        | cons q qs =>
          right
          right
          refine ⟨(send_loop d st.nextTaskId (q :: qs)
            { sent_count := 0, failed_count := 0, new_responses := [], blocked := [],
              next_id := st.nextRespId }).new_responses, ?_, ?_⟩
          · show (send_photo_execute st aid (some photo) d).2.responses = _
            rw [send_main_eq aid photo d hact hfl]
          · intro p hp
            exact (send_loop_status hp).1

/-- Along any single operation, an existing response's status either
stays or moves along a table edge. -/
theorem run_status_step {st : St} (hnd : (st.responses.map Prod.fst).Nodup)
    (op : Op) {rid : Nat} {r r' : RespRec}
    (h1 : alist_find st.responses rid = some r)
    (h2 : alist_find (run st op).responses rid = some r') :
    r'.status = r.status ∨ specEdge r.status r'.status = true := by
  rcases run_responses_char hnd op with hsame
    | ⟨rid0, resp, snew, hfind0, hedge, hupd⟩ | ⟨new, happ, hnew⟩
  · rw [hsame, h1] at h2
    exact Or.inl (by rw [Option.some.inj h2])
  · rw [hupd] at h2
    by_cases hr : rid = rid0
    · subst hr
      have hresp : resp = r := Option.some.inj (hfind0.symm.trans h1)
      subst hresp
      rw [alist_find_update_self _ h1] at h2
      have hr' : { resp with status := snew } = r' := Option.some.inj h2
      right
      rw [← hr']
      exact hedge
    · rw [alist_find_update_other _ hr, h1] at h2
      exact Or.inl (by rw [Option.some.inj h2])
  · rw [happ, alist_find_append_left h1] at h2
    exact Or.inl (by rw [Option.some.inj h2])

/-- A response that appears during one operation is created in
pending_user. -/
theorem run_status_new {st : St} (hnd : (st.responses.map Prod.fst).Nodup)
    (op : Op) {rid : Nat} {r' : RespRec}
    (h1 : alist_find st.responses rid = none)
    (h2 : alist_find (run st op).responses rid = some r') :
    r'.status = Status.pending_user := by
  rcases run_responses_char hnd op with hsame
    | ⟨rid0, resp, snew, hfind0, hedge, hupd⟩ | ⟨new, happ, hnew⟩
  · rw [hsame, h1] at h2
    cases h2
  · rw [hupd] at h2
    by_cases hr : rid = rid0
    · subst hr
      rw [h1] at hfind0
      cases hfind0
    · rw [alist_find_update_other _ hr, h1] at h2
      cases h2
  · rw [happ, alist_find_append_right h1] at h2
    exact hnew _ (alist_find_mem h2)

/-! Remaining helper lemmas for the claim theorems. -/

theorem find?_alist_update {α : Type} {Q : Nat × α → Bool} {rs : List (Nat × α)}
    {rid : Nat} {resp : α}
    (hnd : (rs.map Prod.fst).Nodup)
    (hfr : rs.find? Q = some (rid, resp))
    (f : α → α)
    (hQ : Q (rid, f resp) = Q (rid, resp)) :
    (alist_update rs rid f).find? Q = some (rid, f resp) := by
  induction rs with
  | nil => simp at hfr
  | cons p t ih =>
    obtain ⟨a, w⟩ := p
    simp only [List.map_cons, List.nodup_cons] at hnd
    cases hq : Q (a, w) with
    | true =>
      rw [List.find?_cons_of_pos t hq] at hfr
      obtain ⟨ha, hw⟩ := Prod.mk.injEq .. ▸ Option.some.inj hfr
      subst ha
      subst hw
      have hupd : alist_update ((a, w) :: t) a f = (a, f w) :: t := by
        simp [alist_update]
      rw [hupd]
      exact List.find?_cons_of_pos t (hq ▸ hQ)
    | false =>
      have hqn : ¬ Q (a, w) = true := by
        rw [hq]
        exact Bool.false_ne_true
      rw [List.find?_cons_of_neg t hqn] at hfr
      have hmem : rid ∈ t.map Prod.fst :=
        List.mem_map.mpr ⟨(rid, resp), List.mem_of_find?_eq_some hfr, rfl⟩
      have hak : a ≠ rid := fun hh => hnd.1 (hh ▸ hmem)
      have hupd : alist_update ((a, w) :: t) rid f = (a, w) :: alist_update t rid f := by
        simp [alist_update, hak]
      rw [hupd, List.find?_cons_of_neg (alist_update t rid f) hqn]
      exact ih hnd.2 hfr

theorem find_user_response_update {rs : List (Nat × RespRec)} {uid tid rid : Nat}
    {resp : RespRec} (hnd : (rs.map Prod.fst).Nodup)
    (hfr : find_user_response rs uid tid = some (rid, resp))
    (f : RespRec → RespRec)
    (hfu : (f resp).user_telegram_id = resp.user_telegram_id)
    (hft : (f resp).task_id = resp.task_id) :
    find_user_response (alist_update rs rid f) uid tid = some (rid, f resp) := by
  unfold find_user_response at hfr ⊢
  refine find?_alist_update hnd hfr f ?_
  show ((f resp).user_telegram_id == uid && (f resp).task_id == tid)
    = (resp.user_telegram_id == uid && resp.task_id == tid)
  rw [hfu, hft]

theorem eq_of_mem_keys_nodup {α : Type} {l : List (Nat × α)}
    (hnd : (l.map Prod.fst).Nodup) {x y : Nat × α}
    (hx : x ∈ l) (hy : y ∈ l) (hk : x.1 = y.1) : x = y := by
  have h1 : alist_find l x.1 = some x.2 := alist_find_eq_some_of_mem hnd hx
  have h2 : alist_find l y.1 = some y.2 := alist_find_eq_some_of_mem hnd hy
  rw [hk] at h1
  rw [h2] at h1
  have := Option.some.inj h1
  exact Prod.ext hk this.symm

theorem contains_blocked {users : List (Nat × UserRec)}
    (hnd : (users.map Prod.fst).Nodup) {p : Nat × UserRec} (hp : p ∈ users)
    (d : Nat → Delivery) :
    ((((users.filter (fun x => x.2.is_active)).filter
        (fun x => is_perm_fail d x.1)).map Prod.fst).contains p.1)
      = (p.2.is_active && is_perm_fail d p.1) := by
  cases hA : (p.2.is_active && is_perm_fail d p.1) with
  | true =>
    obtain ⟨ha, hperm⟩ := Bool.and_eq_true_iff.mp hA
    have hmem : p ∈ (users.filter (fun x => x.2.is_active)).filter
        (fun x => is_perm_fail d x.1) :=
      List.mem_filter.mpr ⟨List.mem_filter.mpr ⟨hp, ha⟩, hperm⟩
    exact List.elem_iff.mpr (List.mem_map.mpr ⟨p, hmem, rfl⟩)
  | false =>
    cases hc : (((users.filter (fun x => x.2.is_active)).filter
        (fun x => is_perm_fail d x.1)).map Prod.fst).contains p.1 with
    | false => rfl
    | true =>
      exfalso
      obtain ⟨x, hxmem, hxk⟩ := List.mem_map.mp (List.elem_iff.mp hc)
      have hx1 := List.mem_filter.mp hxmem
      have hx2 := List.mem_filter.mp hx1.1
      have hxp : x = p := eq_of_mem_keys_nodup hnd (List.mem_of_mem_filter hx1.1) hp hxk
      subst hxp
      rw [Bool.and_eq_true_iff.mpr ⟨hx2.2, hx1.2⟩] at hA
      cases hA

theorem mark_blocked_perm {users : List (Nat × UserRec)}
    (hnd : (users.map Prod.fst).Nodup) (d : Nat → Delivery) :
    mark_blocked users
      (((users.filter (fun x => x.2.is_active)).filter
        (fun x => is_perm_fail d x.1)).map Prod.fst)
      = users.map (fun p => cond (p.2.is_active && is_perm_fail d p.1)
          (p.1, { p.2 with is_active := false }) p) := by
  unfold mark_blocked
  refine List.map_congr_left ?_
  intro p hp
  rw [contains_blocked hnd hp d]

/-! Concrete sample states used to instantiate the theorems. -/

/-- Sample deployment: admin 9, recipient 1, task 0, response 0 to task 0
in status confirmed, Redis reachable, no timer armed, flag never set. -/
def sampleConfirmed : St :=
  { users := [(1, { is_active := true, success_count := 1, fail_count := 0 })],
    admins := [9],
    tasks := [(0, { admin_telegram_id := 9, photo_file_id := 7 })],
    responses := [(0, { user_telegram_id := 1, task_id := 0, status := .confirmed,
                        moderation_message_id := none, user_message_id := some 5 })],
    timers := [], redisUp := true, botActive := none, nextTaskId := 1, nextRespId := 1 }

/-- Variant of the sample with the global flag switched off. -/
def samplePaused : St :=
  { sampleConfirmed with botActive := some false }

/-- Three active recipients and no prior task, for the broadcast
example. -/
def sampleBroadcast : St :=
  { users := [(1, { is_active := true, success_count := 0, fail_count := 0 }),
              (2, { is_active := true, success_count := 0, fail_count := 0 }),
              (3, { is_active := true, success_count := 0, fail_count := 0 })],
    admins := [9], tasks := [], responses := [], timers := [],
    redisUp := true, botActive := none, nextTaskId := 0, nextRespId := 0 }

/-- Delivery oracle for the broadcast example: recipient 2 is permanently
unreachable, the others receive the message. -/
def sampleDeliver : Nat → Delivery :=
  fun uid => if uid = 2 then .blockedOrNotFound else .success 42

/-! Claim theorems. -/

/-- C2: in every reachable state (a quiescent point: no operation is in
flight), each recipient's success_count equals the number of that
recipient's responses currently in confirmed and its fail_count the
number currently in rejected or slyot — the operations adjust the
counters in lock-step with the status writes. -/
theorem claim_C2_counters_invariant (admins : List Nat) (redisUp : Bool) (st : St)
    (h : reachable admins redisUp st) :
    ∀ uid u, alist_find st.users uid = some u →
      u.success_count = (confirmed_count st.responses uid : Int)
      ∧ u.fail_count = (failed_status_count st.responses uid : Int) :=
  (inv_reachable h).2.2

theorem claim_C2_witness :
    ({ is_active := true, success_count := 0, fail_count := 0 } : UserRec).success_count
      = (confirmed_count (run (init [9] true) (Op.startCmd 1)).responses 1 : Int)
    ∧ ({ is_active := true, success_count := 0, fail_count := 0 } : UserRec).fail_count
      = (failed_status_count (run (init [9] true) (Op.startCmd 1)).responses 1 : Int) :=
  claim_C2_counters_invariant [9] true _
    (Relation.ReflTransGen.single ⟨Op.startCmd 1, rfl⟩) 1 _ (by rfl)

/-- C3: in every reachable state, one further operation moves the status
of an existing response only along an edge of the transition table of
section 4.1 — in particular no backward jump (such as pending_operator
back to pending_recipient) is reachable — and any response the operation
creates starts in pending_user. -/
theorem claim_C3_transition_table (admins : List Nat) (redisUp : Bool) (st : St)
    (h : reachable admins redisUp st) (op : Op) (rid : Nat) :
    (∀ r r', alist_find st.responses rid = some r →
        alist_find (run st op).responses rid = some r' →
        r'.status = r.status ∨ specEdge r.status r'.status = true)
    ∧ (∀ r', alist_find st.responses rid = none →
        alist_find (run st op).responses rid = some r' →
        r'.status = Status.pending_user) := by
  have hnd := (inv_reachable h).1.1
  exact ⟨fun r r' h1 h2 => run_status_step hnd op h1 h2,
         fun r' h1 h2 => run_status_new hnd op h1 h2⟩

theorem claim_C3_witness :
    Status.success_pending_admin = Status.pending_user
    ∨ specEdge Status.pending_user Status.success_pending_admin = true :=
  (claim_C3_transition_table [9] true _
    (Relation.ReflTransGen.tail (Relation.ReflTransGen.single ⟨Op.startCmd 1, rfl⟩)
      ⟨Op.sendPhoto 9 (some 7) (fun _ => Delivery.success 42), rfl⟩)
    (Op.userResp 1 0 .task_success) 0).1
    { user_telegram_id := 1, task_id := 0, status := Status.pending_user,
      moderation_message_id := none, user_message_id := some 42 }
    { user_telegram_id := 1, task_id := 0, status := Status.success_pending_admin,
      moderation_message_id := none, user_message_id := some 42 }
    (by rfl) (by rfl)

/-- C7: while the process-wide active flag is false, the broadcast entry
point refuses with the bot-paused outcome and the state — tasks table,
responses table and everything else — is returned unchanged; the flag
itself defaults to true when it was never set. -/
theorem claim_C7_bot_paused (st : St) (aid photo : Nat) (d : Nat → Delivery)
    (hpause : is_bot_globally_active st = false) :
    send_photo_execute st aid (some photo) d = (.botPaused, st)
    ∧ (∀ s : St, s.botActive = none → is_bot_globally_active s = true) :=
  ⟨send_paused_eq aid photo d hpause,
   fun s hs => by simp [is_bot_globally_active, hs]⟩

theorem claim_C7_witness :
    send_photo_execute samplePaused 9 (some 7) sampleDeliver
      = (.botPaused, samplePaused) :=
  (claim_C7_bot_paused samplePaused 9 7 sampleDeliver rfl).1

/-- C6: a broadcast over the eligible (is_active) recipients reports one
sent per delivery success and one failure per delivery failure, with
sent plus failed covering every eligible recipient — the fan-out never
aborts early; exactly one response row in pending_user is created per
success and none for failures; each permanently failed recipient (and
only those) loses eligibility; transient failures change neither
eligibility nor create a response; and the task row persists
regardless. -/
theorem claim_C6_broadcast (st : St) (aid photo : Nat) (d : Nat → Delivery)
    {q : Nat × UserRec} {qs : List (Nat × UserRec)}
    (hact : is_bot_globally_active st = true)
    (hnd : (st.users.map Prod.fst).Nodup)
    (hfl : st.users.filter (fun p => p.2.is_active) = q :: qs) :
    (send_photo_execute st aid (some photo) d).1
      = .sent st.nextTaskId
          ((q :: qs).filter (fun p => is_sent d p.1)).length
          ((q :: qs).filter (fun p => !(is_sent d p.1))).length
    ∧ ((q :: qs).filter (fun p => is_sent d p.1)).length
        + ((q :: qs).filter (fun p => !(is_sent d p.1))).length = (q :: qs).length
    ∧ (send_photo_execute st aid (some photo) d).2.responses.map Prod.snd
        = st.responses.map Prod.snd
          ++ ((q :: qs).filter (fun p => is_sent d p.1)).map (resp_of d st.nextTaskId)
    ∧ (∀ p : Nat × UserRec, (resp_of d st.nextTaskId p).status = Status.pending_user)
    ∧ (send_photo_execute st aid (some photo) d).2.tasks
        = st.tasks
          ++ [(st.nextTaskId, { admin_telegram_id := aid, photo_file_id := photo })]
    ∧ (send_photo_execute st aid (some photo) d).2.users
        = st.users.map (fun p => cond (p.2.is_active && is_perm_fail d p.1)
            (p.1, { p.2 with is_active := false }) p) := by
  have hsent := send_loop_sent d st.nextTaskId (q :: qs)
    { sent_count := 0, failed_count := 0, new_responses := [], blocked := [],
      next_id := st.nextRespId }
  have hfail := send_loop_failed d st.nextTaskId (q :: qs)
    { sent_count := 0, failed_count := 0, new_responses := [], blocked := [],
      next_id := st.nextRespId }
  have hresp := send_loop_responses d st.nextTaskId (q :: qs)
    { sent_count := 0, failed_count := 0, new_responses := [], blocked := [],
      next_id := st.nextRespId }
  have hblock := send_loop_blocked d st.nextTaskId (q :: qs)
    { sent_count := 0, failed_count := 0, new_responses := [], blocked := [],
      next_id := st.nextRespId }
  rw [send_main_eq aid photo d hact hfl]
  refine ⟨?_, ?_, ?_, ?_, ?_, ?_⟩
  · show SendOutcome.sent _ _ _ = _
    rw [hsent, hfail]
    simp
  · exact (List.length_eq_length_filter_add
      (fun p : Nat × UserRec => is_sent d p.1)).symm
  · show (st.responses ++ _).map Prod.snd = _
    rw [List.map_append, hresp]
    simp
  · intro p
    rfl
  · rfl
  · show mark_blocked st.users _ = _
    have hb : (send_loop d st.nextTaskId (q :: qs)
        { sent_count := 0, failed_count := 0, new_responses := [], blocked := [],
          next_id := st.nextRespId }).blocked
        = ((st.users.filter (fun x => x.2.is_active)).filter
            (fun x => is_perm_fail d x.1)).map Prod.fst := by
      rw [hblock, hfl]
      simp
    rw [hb]
    exact mark_blocked_perm hnd d

theorem claim_C6_witness :
    (send_photo_execute sampleBroadcast 9 (some 7) sampleDeliver).1 = .sent 0 2 1 :=
  (claim_C6_broadcast sampleBroadcast 9 7 sampleDeliver rfl (by decide) rfl).1

/-! Parse-level facts: the reconstructed action strings never match the
constants, so the transition branches of the callback handlers are
unreachable for every input. -/

theorem splitFirst_not_mem {sep : Char} {s a b : List Char}
    (h : splitFirst sep s = some (a, b)) : sep ∉ a := by
  induction s generalizing a b with
  | nil => simp [splitFirst] at h
  | cons c t ih =>
    by_cases hc : c = sep
    · have hstep : splitFirst sep (c :: t) = some ([], t) := by
        simp [splitFirst, hc]
      rw [hstep] at h
      obtain ⟨ha, hb⟩ := Prod.mk.injEq .. ▸ Option.some.inj h
      rw [← ha]
      simp
    · cases hsf : splitFirst sep t with
      | none =>
        have hstep : splitFirst sep (c :: t) = none := by
          simp [splitFirst, hc, hsf]
        rw [hstep] at h
        cases h
      | some ab =>
        obtain ⟨a2, b2⟩ := ab
        have hstep : splitFirst sep (c :: t) = some (c :: a2, b2) := by
          simp [splitFirst, hc, hsf]
        rw [hstep] at h
        obtain ⟨ha, hb⟩ := Prod.mk.injEq .. ▸ Option.some.inj h
        rw [← ha]
        intro hmem
        rcases List.mem_cons.mp hmem with heq | htail
        · exact hc heq.symm
        · exact ih hsf htail

theorem split2_parts {sep : Char} {s p a r : List Char}
    (h : split2 sep s = [p, a, r]) : sep ∉ p ∧ sep ∉ a := by
  cases h1 : splitFirst sep s with
  | none =>
    have : split2 sep s = [s] := by simp [split2, h1]
    rw [this] at h
    simp at h
  | some ar =>
    obtain ⟨a1, r1⟩ := ar
    cases h2 : splitFirst sep r1 with
    | none =>
      have : split2 sep s = [a1, r1] := by simp [split2, h1, h2]
      rw [this] at h
      simp at h
    | some ar2 =>
      obtain ⟨a2, r2⟩ := ar2
      have : split2 sep s = [a1, a2, r2] := by simp [split2, h1, h2]
      rw [this] at h
      obtain ⟨hp, ha, hr⟩ : a1 = p ∧ a2 = a ∧ r2 = r := by simpa using h
      exact ⟨hp ▸ splitFirst_not_mem h1, ha ▸ splitFirst_not_mem h2⟩

theorem count_reconstructed {p a : List Char} (hp : '_' ∉ p) (ha : '_' ∉ a) :
    (p ++ '_' :: (a ++ ['_'])).count '_' = 2 := by
  have hp0 : p.count '_' = 0 := List.count_eq_zero.mpr hp
  have ha0 : a.count '_' = 0 := List.count_eq_zero.mpr ha
  simp [List.count_append, List.count_cons, hp0, ha0]

theorem decode_mod_action_reconstructed {p a : List Char}
    (hp : '_' ∉ p) (ha : '_' ∉ a) :
    decode_mod_action (p ++ '_' :: (a ++ ['_'])) = .unknown := by
  have hcount := count_reconstructed hp ha
  have h1 : p ++ '_' :: (a ++ ['_']) ≠ CB_ADMIN_CONFIRM := by
    intro h
    rw [h] at hcount
    have h3 : CB_ADMIN_CONFIRM.count '_' = 3 := rfl
    rw [h3] at hcount
    cases hcount
  have h2 : p ++ '_' :: (a ++ ['_']) ≠ CB_ADMIN_REJECT := by
    intro h
    rw [h] at hcount
    have h3 : CB_ADMIN_REJECT.count '_' = 3 := rfl
    rw [h3] at hcount
    cases hcount
  simp [decode_mod_action, h1, h2]

theorem decode_slyot_action_reconstructed {p a : List Char}
    (hp : '_' ∉ p) (ha : '_' ∉ a) :
    decode_slyot_action (p ++ '_' :: (a ++ ['_'])) = .unknown := by
  have hcount := count_reconstructed hp ha
  have h1 : p ++ '_' :: (a ++ ['_']) ≠ CB_ADMIN_MARK_SLYOT := by
    intro h
    rw [h] at hcount
    have h3 : CB_ADMIN_MARK_SLYOT.count '_' = 3 := rfl
    rw [h3] at hcount
    cases hcount
  have h2 : p ++ '_' :: (a ++ ['_']) ≠ CB_ADMIN_CANCEL_SLYOT := by
    intro h
    rw [h] at hcount
    have h3 : CB_ADMIN_CANCEL_SLYOT.count '_' = 3 := rfl
    rw [h3] at hcount
    cases hcount
  simp [decode_slyot_action, h1, h2]

theorem decode_user_action_reconstructed {a : List Char} (ha : '_' ∉ a) :
    decode_user_action (("user_".data) ++ a) = .unknown := by
  have ha0 : a.count '_' = 0 := List.count_eq_zero.mpr ha
  have hcount : (("user_".data) ++ a).count '_' = 1 := by
    simp [List.count_append, ha0]
  have h1 : ("user_".data) ++ a ≠ CB_USER_TASK_SUCCESS := by
    intro h
    rw [h] at hcount
    have h3 : CB_USER_TASK_SUCCESS.count '_' = 2 := rfl
    rw [h3] at hcount
    cases hcount
  unfold decode_user_action
  rw [if_neg h1]

theorem parse_admin_shape {cb action : List Char} {rid : Nat}
    (h : parse_admin_callback cb = some (action, rid)) :
    ∃ p a, '_' ∉ p ∧ '_' ∉ a ∧ action = p ++ '_' :: (a ++ ['_']) := by
  cases hsp : split2 '_' cb with
  | nil =>
    rw [show parse_admin_callback cb = none by
      simp [parse_admin_callback, hsp]] at h
    cases h
  | cons p t1 =>
    cases t1 with
    | nil =>
      rw [show parse_admin_callback cb = none by
        simp [parse_admin_callback, hsp]] at h
      cases h
    | cons a t2 =>
      cases t2 with
      | nil =>
        rw [show parse_admin_callback cb = none by
          simp [parse_admin_callback, hsp]] at h
        cases h
      | cons r t3 =>
        cases t3 with
        | cons x t4 =>
          rw [show parse_admin_callback cb = none by
            simp [parse_admin_callback, hsp]] at h
          cases h
        | nil =>
          rw [show parse_admin_callback cb
              = (py_int? r).map (fun n => (p ++ '_' :: (a ++ ['_']), n)) by
            simp [parse_admin_callback, hsp]] at h
          obtain ⟨n, hn, heq⟩ := Option.map_eq_some'.mp h
          obtain ⟨hact, hridn⟩ := Prod.mk.injEq .. ▸ heq
          obtain ⟨hp, ha⟩ := split2_parts hsp
          exact ⟨p, a, hp, ha, hact.symm⟩

theorem parse_user_shape {cb action : List Char} {tid : Nat}
    (h : parse_user_callback cb = some (action, tid)) :
    ∃ a, '_' ∉ a ∧ action = ("user_".data) ++ a := by
  cases hsp : split2 '_' cb with
  | nil =>
    rw [show parse_user_callback cb = none by
      simp [parse_user_callback, hsp]] at h
    cases h
  | cons p t1 =>
    cases t1 with
    | nil =>
      rw [show parse_user_callback cb = none by
        simp [parse_user_callback, hsp]] at h
      cases h
    | cons a t2 =>
      cases t2 with
      | nil =>
        rw [show parse_user_callback cb = none by
          simp [parse_user_callback, hsp]] at h
        cases h
      | cons r t3 =>
        cases t3 with
        | cons x t4 =>
          rw [show parse_user_callback cb = none by
            simp [parse_user_callback, hsp]] at h
          cases h
        | nil =>
          rw [show parse_user_callback cb
              = (py_int? r).map (fun n => (("user_".data) ++ a, n)) by
            simp [parse_user_callback, hsp]] at h
          obtain ⟨n, hn, heq⟩ := Option.map_eq_some'.mp h
          obtain ⟨hact, htidn⟩ := Prod.mk.injEq .. ▸ heq
          obtain ⟨hp, ha⟩ := split2_parts hsp
          exact ⟨a, ha, hact.symm⟩

theorem mod_unknown_cases (st : St) (rid : Nat) :
    (handle_admin_moderation st rid .unknown).2 = st
    ∧ ((handle_admin_moderation st rid .unknown).1 = .responseNotFound
       ∨ (handle_admin_moderation st rid .unknown).1 = .userNotFound
       ∨ (handle_admin_moderation st rid .unknown).1 = .invalidTransition
       ∨ (handle_admin_moderation st rid .unknown).1 = .unknownAction) := by
  cases hfind : alist_find st.responses rid with
  | none => simp [handle_admin_moderation, hfind]
  | some resp =>
    cases hu : alist_find st.users resp.user_telegram_id with
    | none => simp [handle_admin_moderation, hfind, hu]
    | some u =>
      by_cases hst : resp.status = Status.success_pending_admin <;>
        simp [handle_admin_moderation, hfind, hu, hst]

theorem slyot_unknown_cases (st : St) (rid : Nat) (c : Bool) :
    (handle_admin_slyot_action st rid .unknown c).2 = st
    ∧ ((handle_admin_slyot_action st rid .unknown c).1 = .responseNotFound
       ∨ (handle_admin_slyot_action st rid .unknown c).1 = .userNotFound
       ∨ (handle_admin_slyot_action st rid .unknown c).1 = .unknownAction) := by
  cases hfind : alist_find st.responses rid with
  | none => simp [handle_admin_slyot_action, hfind]
  | some resp =>
    cases hu : alist_find st.users resp.user_telegram_id with
    | none => simp [handle_admin_slyot_action, hfind, hu]
    | some u => simp [handle_admin_slyot_action, hfind, hu]

theorem user_unknown_cases (st : St) (uid tid : Nat) :
    (handle_user_task_response st uid tid .unknown).2 = st
    ∧ (handle_user_task_response st uid tid .unknown).1 ≠ .internalError := by
  cases hfr : find_user_response st.responses uid tid with
  | none => simp [handle_user_task_response, hfr]
  | some found =>
    obtain ⟨rid, resp⟩ := found
    by_cases hst : resp.status = Status.pending_user
    · cases htask : alist_find st.tasks tid with
      | none => simp [handle_user_task_response, hfr, hst, htask]
      | some task => simp [handle_user_task_response, hfr, hst, htask]
    · simp [handle_user_task_response, hfr, hst]

theorem handle_admin_moderation_cb_dead (st : St) (cb : List Char) :
    (handle_admin_moderation_cb st cb).2 = st
    ∧ (handle_admin_moderation_cb st cb).1 ≠ some ModOutcome.confirmedOk
    ∧ (handle_admin_moderation_cb st cb).1 ≠ some ModOutcome.rejectedOk := by
  cases hparse : parse_admin_callback cb with
  | none => simp [handle_admin_moderation_cb, hparse]
  | some pr =>
    obtain ⟨action, rid⟩ := pr
    obtain ⟨p, a, hp, ha, hact⟩ := parse_admin_shape hparse
    have hdec : decode_mod_action action = .unknown := by
      rw [hact]
      exact decode_mod_action_reconstructed hp ha
    have hstep : handle_admin_moderation_cb st cb
        = (some (handle_admin_moderation st rid ModAction.unknown).1,
           (handle_admin_moderation st rid ModAction.unknown).2) := by
      simp [handle_admin_moderation_cb, hparse, hdec]
    obtain ⟨h2, hout⟩ := mod_unknown_cases st rid
    rw [hstep]
    refine ⟨h2, ?_, ?_⟩ <;>
      rcases hout with h | h | h | h <;> simp [h]

theorem handle_admin_slyot_cb_dead (st : St) (cb : List Char) (c : Bool) :
    (handle_admin_slyot_action_cb st cb c).2 = st
    ∧ (∀ b : Bool,
        (handle_admin_slyot_action_cb st cb c).1 ≠ some (SlyotOutcome.markedOk b))
    ∧ (handle_admin_slyot_action_cb st cb c).1 ≠ some SlyotOutcome.canceledOk
    ∧ (handle_admin_slyot_action_cb st cb c).1 ≠ some SlyotOutcome.windowExpired
    ∧ (handle_admin_slyot_action_cb st cb c).1 ≠ some SlyotOutcome.invalidTransition := by
  cases hparse : parse_admin_callback cb with
  | none => simp [handle_admin_slyot_action_cb, hparse]
  | some pr =>
    obtain ⟨action, rid⟩ := pr
    obtain ⟨p, a, hp, ha, hact⟩ := parse_admin_shape hparse
    have hdec : decode_slyot_action action = .unknown := by
      rw [hact]
      exact decode_slyot_action_reconstructed hp ha
    have hstep : handle_admin_slyot_action_cb st cb c
        = (some (handle_admin_slyot_action st rid SlyotAction.unknown c).1,
           (handle_admin_slyot_action st rid SlyotAction.unknown c).2) := by
      simp [handle_admin_slyot_action_cb, hparse, hdec]
    obtain ⟨h2, hout⟩ := slyot_unknown_cases st rid c
    rw [hstep]
    refine ⟨h2, ?_, ?_, ?_, ?_⟩
    · intro b
      rcases hout with h | h | h <;> simp [h]
    all_goals rcases hout with h | h | h <;> simp [h]

theorem handle_user_cb_dead (st : St) (uid : Nat) (cb : List Char) :
    (handle_user_task_response_cb st uid cb).2 = st
    ∧ (handle_user_task_response_cb st uid cb).1 ≠ some UserOutcome.internalError := by
  cases hparse : parse_user_callback cb with
  | none => simp [handle_user_task_response_cb, hparse]
  | some pr =>
    obtain ⟨action, tid⟩ := pr
    obtain ⟨a, ha, hact⟩ := parse_user_shape hparse
    have hdec : decode_user_action action = .unknown := by
      rw [hact]
      exact decode_user_action_reconstructed ha
    have hstep : handle_user_task_response_cb st uid cb
        = (some (handle_user_task_response st uid tid UserAction.unknown).1,
           (handle_user_task_response st uid tid UserAction.unknown).2) := by
      simp [handle_user_task_response_cb, hparse, hdec]
    obtain ⟨h2, hout⟩ := user_unknown_cases st uid tid
    rw [hstep]
    exact ⟨h2, by simp [hout]⟩

/-- C1: refuted as stated — the moderation operations never reach their
guards.  The payloads produced by keyboards.py for the four buttons
("admin_mod_confirm_<id>", "admin_mod_reject_<id>", "admin_slyot_mark_<id>",
"admin_slyot_cancel_<id>") all fail the int() of the split segment at
handlers_admin.py lines 232-234 and 349-351 (the segment is "confirm_7",
"mark_7", ..., never a bare number), so both handlers take the
parse-error reply and return with the state untouched: the claimed
InvalidTransition refusal of a guard-violating call is unreachable for
every one of the four operations. -/
theorem claim_C1_guard_unreachable :
    (∀ st : St,
        handle_admin_moderation_cb st ("admin_mod_confirm_7".data) = (none, st))
    ∧ (∀ st : St,
        handle_admin_moderation_cb st ("admin_mod_reject_7".data) = (none, st))
    ∧ (∀ (st : St) (c : Bool),
        handle_admin_slyot_action_cb st ("admin_slyot_mark_7".data) c = (none, st))
    ∧ (∀ (st : St) (c : Bool),
        handle_admin_slyot_action_cb st ("admin_slyot_cancel_7".data) c = (none, st)) := by
  have h1 : parse_admin_callback ("admin_mod_confirm_7".data) = none := rfl
  have h2 : parse_admin_callback ("admin_mod_reject_7".data) = none := rfl
  have h3 : parse_admin_callback ("admin_slyot_mark_7".data) = none := rfl
  have h4 : parse_admin_callback ("admin_slyot_cancel_7".data) = none := rfl
  refine ⟨fun st => ?_, fun st => ?_, fun st c => ?_, fun st c => ?_⟩
  · simp [handle_admin_moderation_cb, h1]
  · simp [handle_admin_moderation_cb, h2]
  · simp [handle_admin_slyot_action_cb, h3]
  · simp [handle_admin_slyot_action_cb, h4]

/-- C4: refuted as stated — no status write is reachable at all, so there
is no applied transition whose survival past a notification failure could
be observed.  Every call of the moderation, slyot and user-response
callback handlers leaves the state exactly unchanged, whatever the
callback payload: the real payloads fail the int() parse, and the
payloads that do parse reconstruct an action string
("<p>_<a>_" with underscore-free p and a, or "user_<a>") that can never
equal the four-underscore-bearing constants of constants.py, so the
handlers always answer unknown-action without touching the database.
In particular the user payload "user_task_success_3" generated by
keyboards.py line 36 is answered by the parse-error branch. -/
theorem claim_C4_no_write_reachable :
    (∀ (st : St) (cb : List Char), (handle_admin_moderation_cb st cb).2 = st)
    ∧ (∀ (st : St) (cb : List Char) (c : Bool),
        (handle_admin_slyot_action_cb st cb c).2 = st)
    ∧ (∀ (st : St) (uid : Nat) (cb : List Char),
        (handle_user_task_response_cb st uid cb).2 = st)
    ∧ (∀ st : St,
        handle_user_task_response_cb st 1 ("user_task_success_3".data) = (none, st)) := by
  refine ⟨fun st cb => (handle_admin_moderation_cb_dead st cb).1,
          fun st cb c => (handle_admin_slyot_cb_dead st cb c).1,
          fun st uid cb => (handle_user_cb_dead st uid cb).1,
          fun st => ?_⟩
  have h : parse_user_callback ("user_task_success_3".data) = none := rfl
  simp [handle_user_task_response_cb, h]

/-- C5: refuted as stated — undo_flag (cancel-slyot) can never succeed
and can never report WindowExpired, because the cancel branch of
handlers_admin.py lines 410-448 is dead code: the keyboard payload
"admin_slyot_cancel_<id>" fails the int() parse at lines 349-351, and any
payload that does parse yields an action with two underscores that never
equals CB_ADMIN_CANCEL_SLYOT (three underscores), so the handler never
enters the cancel branch; on the real payload it replies with the
parse error and changes nothing. -/
theorem claim_C5_undo_unreachable :
    (∀ (st : St) (cb : List Char) (c : Bool),
        (handle_admin_slyot_action_cb st cb c).1 ≠ some SlyotOutcome.canceledOk)
    ∧ (∀ (st : St) (cb : List Char) (c : Bool),
        (handle_admin_slyot_action_cb st cb c).1 ≠ some SlyotOutcome.windowExpired)
    ∧ (∀ (st : St) (c : Bool),
        handle_admin_slyot_action_cb st ("admin_slyot_cancel_12".data) c = (none, st)) := by
  refine ⟨fun st cb c => (handle_admin_slyot_cb_dead st cb c).2.2.1,
          fun st cb c => (handle_admin_slyot_cb_dead st cb c).2.2.2.1,
          fun st c => ?_⟩
  have h : parse_admin_callback ("admin_slyot_cancel_12".data) = none := rfl
  simp [handle_admin_slyot_action_cb, h]

/-- C8: refuted as stated — the degraded-mode behaviour the claim asserts
for flag_invalid does not exist, because mark-slyot never takes effect:
the keyboard payload "admin_slyot_mark_<id>" fails the int() parse of
handlers_admin.py lines 349-351 and no parseable payload decodes to the
mark action, so the handler never returns markedOk and never commits the
slyot transition, Redis up or down.  Only the fail-closed half survives:
check_slyot_cancel_timer does return false whenever Redis is
unreachable. -/
theorem claim_C8_mark_unreachable :
    (∀ (st : St) (cb : List Char) (c b : Bool),
        (handle_admin_slyot_action_cb st cb c).1 ≠ some (SlyotOutcome.markedOk b))
    ∧ (∀ (st : St) (rid : Nat),
        check_slyot_cancel_timer { st with redisUp := false } rid = false)
    ∧ (∀ (st : St) (c : Bool),
        handle_admin_slyot_action_cb st ("admin_slyot_mark_12".data) c = (none, st)) := by
  refine ⟨fun st cb c b => (handle_admin_slyot_cb_dead st cb c).2.1 b,
          fun st rid => ?_, fun st c => ?_⟩
  · simp [check_slyot_cancel_timer]
  · have h : parse_admin_callback ("admin_slyot_mark_12".data) = none := rfl
    simp [handle_admin_slyot_action_cb, h]

/-- C10: refuted as stated — the clear-timer-before-commit window the
claim describes is never entered: the cancel branch of
handlers_admin.py lines 410-448 containing the clear at line 417 and the
commit at line 422 is unreachable (the keyboard payload
"admin_slyot_cancel_<id>" fails the int() parse and no parseable payload
decodes to the cancel action), so no call of the slyot callback handler
ever deletes a timer key — the timer set is preserved by every call,
including one whose commit would fail. -/
theorem claim_C10_consume_unreachable :
    (∀ (st : St) (cb : List Char) (c : Bool),
        (handle_admin_slyot_action_cb st cb c).2.timers = st.timers)
    ∧ (∀ st : St,
        handle_admin_slyot_action_cb st ("admin_slyot_cancel_34".data) false = (none, st)) := by
  refine ⟨fun st cb c => by rw [(handle_admin_slyot_cb_dead st cb c).1],
          fun st => ?_⟩
  have h : parse_admin_callback ("admin_slyot_cancel_34".data) = none := rfl
  simp [handle_admin_slyot_action_cb, h]

end ExampleBot
